import Mathlib

/-!
# Verification of the NRW-Gemeinden extraction pipeline

A shallow embedding of the extraction-and-normalization core of the
repository (`src/extract.py`): the retrying HTTP fetch primitive `_get`,
the infobox label/value normalizer (`_lower_keys`, `_first`, `_safe_int`,
`_safe_float`, `_parse_infobox`), the page parser (`parse_page`,
`_parse_coordinates_and_text`), per-job processing (`fetch_one`) and the
orchestrator (`run_extraction`).

Modelling conventions:
* Python strings are Lean `String`s (in this toolchain a wrapper around
  `List Char`); the string helpers used by the source (`strip`, `lower`,
  `rstrip(":")`, slicing, `startswith`) are defined below on the character
  list, mirroring Python semantics on the inputs the source handles.
* Python `int` is `Int`; Python `float` values produced by the parsers are
  modelled exactly as the decimal rationals they are parsed from (`ℚ`).
* Python dicts are association lists with insertion-order preserving,
  overwrite-in-place assignment, as Python guarantees.
* The regular expressions the source applies (`([\d\.]+)`, `([\d,\.]+)`,
  `(\d+)`, `\(([^)]*)\)` and `re.sub(r'\([^)]*\)', '', s)`) are modelled by
  dedicated searchers with Python's leftmost-match semantics.
* I/O (HTTP fetch, `pandas.read_html`, markup queries) is abstracted into a
  `Page` value holding what the source would have observed; concurrency is
  abstracted by an explicit completion order (a permutation of the job
  indices) handed to the orchestrator.
-/

/-! ## Python string primitives -/

/-- Characters removed by Python `str.strip()` (the whitespace the source's
inputs can carry). -/
def pyIsSpace (c : Char) : Bool :=
  c = ' ' || c = '\t' || c = '\n' || c = '\r'

/-- Model of Python `str.strip()` on a character list. -/
def stripChars (cs : List Char) : List Char :=
  ((cs.dropWhile pyIsSpace).reverse.dropWhile pyIsSpace).reverse

/-- Model of Python `str.strip()`. -/
def pyStrip (s : String) : String :=
  ⟨stripChars s.data⟩

/-- Model of Python `str.lower()` (the labels the source meets are ASCII or
already-lowercase umlauts, where this agrees with Python). -/
def pyLower (s : String) : String :=
  ⟨s.data.map Char.toLower⟩

/-- Model of Python `str.rstrip(":")`. -/
def pyRstripColon (s : String) : String :=
  ⟨(s.data.reverse.dropWhile (fun c => c = ':')).reverse⟩

/-- Model of Python `str.startswith`. -/
def pyStartsWith (s pre : String) : Bool :=
  s.data.take pre.data.length == pre.data

/-- Model of Python string slicing `s[:n]` for `n ≥ 0`. -/
def pyTakeStr (s : String) (n : Nat) : String :=
  ⟨s.data.take n⟩

/-- Numeric value of a digit string (what Python `int` returns on a
non-empty all-digit string). -/
def digitsNat (cs : List Char) : Nat :=
  cs.foldl (fun a c => 10 * a + (c.toNat - 48)) 0

/-! ## Python dict model

Association lists with Python-dict assignment: an existing key is
overwritten in place, a new key is appended. -/

/-- Python dict assignment `d[k] = v`. -/
def dictSet {α : Type} (d : List (String × α)) (k : String) (v : α) :
    List (String × α) :=
  match d with
  | [] => [(k, v)]
  | (k', v') :: rest =>
    if k' = k then (k, v) :: rest else (k', v') :: dictSet rest k v

/-- Python dict lookup `d.get(k)`. -/
def dictGet {α : Type} (d : List (String × α)) (k : String) : Option α :=
  match d with
  | [] => none
  | (k', v') :: rest => if k' = k then some v' else dictGet rest k

/-- The keys of a dict. -/
def dictKeys {α : Type} (d : List (String × α)) : List String :=
  d.map Prod.fst

/-- Python `d1.update(d2)`. -/
def dictUpdate {α : Type} (d1 d2 : List (String × α)) : List (String × α) :=
  d2.foldl (fun acc kv => dictSet acc kv.1 kv.2) d1

/-! ## Regular-expression fragments used by the source -/

/-- `re.search` for a pattern of the form `[class]+`: the leftmost maximal
run of characters satisfying `p`, or `none` when no character matches. -/
def reSearchClass (p : Char → Bool) : List Char → Option (List Char)
  | [] => none
  | c :: cs => if p c then some (c :: cs.takeWhile p) else reSearchClass p cs

/-- `re.search(r'\(([^)]*)\)', s)`: the group of the leftmost match — the
text between the first `(` and the first `)` after it; `none` when the first
`(` (hence every `(`) has no closing `)` after it. -/
def reParenGroup : List Char → Option (List Char)
  | [] => none
  | c :: cs =>
    if c = '(' then
      if ')' ∈ cs then some (cs.takeWhile (fun d => d ≠ ')')) else none
    else reParenGroup cs

/-- `re.sub(r'\([^)]*\)', '', s)`: delete every `(`…`)` group (each `(`
paired with the first `)` after it); a `(` with no closing `)` is kept. -/
def reSubParen : List Char → List Char
  | [] => []
  | c :: cs =>
    if _h : c = '(' ∧ ')' ∈ cs then
      reSubParen ((cs.dropWhile (fun d => d ≠ ')')).drop 1)
    else
      c :: reSubParen cs
termination_by cs => cs.length
decreasing_by
  · simp only [List.length_cons]
    have h1 : ((cs.dropWhile (fun d => d ≠ ')')).drop 1).length ≤
        (cs.dropWhile (fun d => d ≠ ')')).length := by
      simp [List.length_drop]
    have h2 : (cs.dropWhile (fun d => d ≠ ')')).length ≤ cs.length :=
      (List.dropWhile_sublist _).length_le
    omega
  · simp only [List.length_cons]; omega

/-! ## The value parsers (`_safe_int`, `_safe_float`) -/

/-- `_safe_int`: strip every non-digit character, then `int(...)`; an empty
cleaned string gives `None`.  The result is a Python `int`, hence `Int`. -/
def safeInt (s : String) : Option Int :=
  let cleaned := s.data.filter Char.isDigit
  if cleaned = [] then none else some (digitsNat cleaned : Int)

/-- Python `float()` on a string of digits and at most one period (the only
alphabet `_safe_float` can pass it): `none` on the empty string, a lone
period, or two periods; otherwise the decimal value, modelled exactly in
`ℚ`. -/
def pyFloatDigits (cs : List Char) : Option ℚ :=
  let intPart := cs.takeWhile (fun c => c ≠ '.')
  match cs.dropWhile (fun c => c ≠ '.') with
  | [] => if intPart = [] then none else some (digitsNat intPart : ℚ)
  | _ :: frac =>
    if '.' ∈ frac then none
    else if intPart = [] ∧ frac = [] then none
    else some ((digitsNat intPart : ℚ) + (digitsNat frac : ℚ) / (10 ^ frac.length))

/-- `_safe_float`: keep only digits, commas and periods, replace each comma
by a period, then `float(...)`; failure gives `None`. -/
def safeFloat (s : String) : Option ℚ :=
  let cleaned := (s.data.filter (fun c => c.isDigit || c = ',' || c = '.')).map
    (fun c => if c = ',' then '.' else c)
  pyFloatDigits cleaned

/-! ## The value universe of the record fields

A Python attribute value as the pipeline produces it: an `int`, a `float`
(modelled as the decimal rational it was parsed from) or a `str`.  A Python
`None` is modelled as `Option.none` around this type (`Pyval`). -/

inductive Value : Type
  | vInt (n : Int)
  | vRat (q : ℚ)
  | vStr (s : String)
deriving DecidableEq

/-- A Python value that may be `None`. -/
abbrev Pyval : Type := Option Value

/-- Python truthiness of a `Value`. -/
def valueTruthy : Value → Bool
  | .vInt n => n ≠ 0
  | .vRat q => q ≠ 0
  | .vStr s => s ≠ ""

/-- Python truthiness of the result of a `dict.get`: false for a missing
key, a `None` value, `0`, `0.0` and `""`. -/
def getTruthy (x : Option Pyval) : Bool :=
  match x with
  | some (some v) => valueTruthy v
  | _ => false

/-- The `info` dict built by the parsing functions: string keys, values that
may be `None`. -/
abbrev Info : Type := List (String × Pyval)

/-! ## `_lower_keys` and `_first` -/

/-- The key normalization inside `_lower_keys`:
`str(row.iloc[0]).strip().lower().rstrip(":")`. -/
def normLabel (s : String) : String :=
  pyRstripColon (pyLower (pyStrip s))

/-- `_lower_keys`: turn the first two cells of every row into a
lowercase-keyed dict entry, skipping rows with fewer than two cells, empty
keys, empty values, and the stringified-NaN value `"nan"`. -/
def lowerKeys (rows : List (List String)) : List (String × String) :=
  rows.foldl
    (fun result row =>
      if row.length ≥ 2 then
        let key := normLabel (row.getD 0 "")
        let value := pyStrip (row.getD 1 "")
        if key ≠ "" ∧ value ≠ "" ∧ value ≠ "nan" then dictSet result key value
        else result
      else result)
    []

/-- `_first`: the first truthy value among the given keys
(`if key in data and data[key]`). -/
def first (data : List (String × String)) : List String → Option String
  | [] => none
  | k :: ks =>
    match dictGet data k with
    | some v => if v ≠ "" then some v else first data ks
    | none => first data ks

/-! ## `_parse_infobox`: the field extraction stages

The body of `_parse_infobox` after the infobox dict has been built, split
into one definition per source block, applied in source order. -/

/-- Character class of the pattern `[\d\.]` (`([\d\.]+)` on the population
value). -/
def isDigitOrDot (c : Char) : Bool :=
  c.isDigit || c = '.'

/-- Character class of the pattern `[\d,\.]` (`([\d,\.]+)` on the area
value). -/
def isDigitCommaDot (c : Char) : Bool :=
  c.isDigit || c = ',' || c = '.'

/-- `# Einwohner + Datum parsen`: population count and reference date. -/
def stageEinwohner (data : List (String × String)) (info : Info) : Info :=
  match first data ["einwohner", "bevölkerung"] with
  | none => info
  | some t =>
    let info1 :=
      match reSearchClass isDigitOrDot t.data with
      | some m => dictSet info "einwohner" ((safeInt ⟨m⟩).map Value.vInt)
      | none => info
    match reParenGroup t.data with
    | some g => dictSet info1 "einwohner_datum" (some (Value.vStr (pyStrip ⟨g⟩)))
    | none => info1

/-- `# Fläche parsen`: area. -/
def stageFlaeche (data : List (String × String)) (info : Info) : Info :=
  match dictGet data "fläche" with
  | none => info
  | some t =>
    if t ≠ "" then
      match reSearchClass isDigitCommaDot t.data with
      | some m => dictSet info "flaeche_km2" ((safeFloat ⟨m⟩).map Value.vRat)
      | none => info
    else info

/-- `# Höhe parsen`: elevation. -/
def stageHoehe (data : List (String × String)) (info : Info) : Info :=
  match dictGet data "höhe" with
  | none => info
  | some t =>
    if t ≠ "" then
      match reSearchClass Char.isDigit t.data with
      | some m => dictSet info "hoehe_m" ((safeInt ⟨m⟩).map Value.vInt)
      | none => info
    else info

/-- The `field_mappings` table: direct source-label → attribute copies. -/
def fieldMappings : List (String × String) :=
  [("gemeindeschlüssel", "gemeindeschluessel"),
   ("landkreis", "landkreis"),
   ("regierungsbezirk", "regierungsbezirk"),
   ("bundesland", "bundesland"),
   ("postleitzahl", "postleitzahl"),
   ("vorwahl", "vorwahl"),
   ("kfz-kennzeichen", "kfz_kennzeichen")]

/-- One step of the `field_mappings` loop
(`if value := infobox_data.get(source_key): info[target_key] = value`). -/
def mappedStep (data : List (String × String)) (info : Info)
    (kv : String × String) : Info :=
  match dictGet data kv.1 with
  | some v => if v ≠ "" then dictSet info kv.2 (some (Value.vStr v)) else info
  | none => info

/-- `# Direkte Feldmappings`: the loop over `field_mappings`. -/
def stageMapped (data : List (String × String)) (info : Info) : Info :=
  fieldMappings.foldl (mappedStep data) info

/-- `# Website normalisieren`. -/
def stageWebsite (data : List (String × String)) (info : Info) : Info :=
  match first data ["website", "homepage"] with
  | none => info
  | some w =>
    dictSet info "website"
      (some (Value.vStr (if pyStartsWith w "http" then w else "https://" ++ w)))

/-- `# Bürgermeister bereinigen`: drop parenthesized annotations, strip. -/
def stageBuergermeister (data : List (String × String)) (info : Info) : Info :=
  match first data ["bürgermeister", "oberbürgermeister"] with
  | none => info
  | some b =>
    dictSet info "buergermeister"
      (some (Value.vStr (pyStrip ⟨reSubParen b.data⟩)))

/-- The field-extraction body of `_parse_infobox`, applied to the infobox
dict, in source order. -/
def parseInfoboxData (data : List (String × String)) : Info :=
  stageBuergermeister data
    (stageWebsite data
      (stageMapped data
        (stageHoehe data
          (stageFlaeche data
            (stageEinwohner data [])))))

/-! ## `_parse_infobox`: table discovery -/

/-- A table as `pandas.read_html` returns it: a column count and rows of
cell strings. -/
structure Table : Type where
  ncols : Nat
  rows : List (List String)
deriving DecidableEq

/-- `_parse_infobox`: `none` for `tables` models `pd.read_html` raising; the
first table with at least two columns is converted with `_lower_keys`; a
missing or empty result yields the empty info dict. -/
def parseInfobox (tables : Option (List Table)) : Info :=
  match tables with
  | none => []
  | some ts =>
    if ts = [] then []
    else
      match ts.find? (fun t => t.ncols ≥ 2) with
      | none => []
      | some t =>
        let data := lowerKeys t.rows
        if data = [] then [] else parseInfoboxData data

/-! ## `_parse_coordinates_and_text` -/

/-- What the markup queries of `_parse_coordinates_and_text` would observe
on one page: the first `table.infobox span.geo` element (its text, and its
parent's `href` when the parent is a link carrying one), the first
GeoHack-style link's `href`, and the cleaned text of the main content
container. -/
structure GeoElem : Type where
  text : String
  parentLinkHref : Option String
deriving DecidableEq

/-- The abstracted observations of one entity page: `tables` is what
`pd.read_html` returns (`none` models it raising), `fetchOk` whether the
`_get` call inside `_parse_coordinates_and_text` succeeded. -/
structure Page : Type where
  tables : Option (List Table)
  fetchOk : Bool
  geo : Option GeoElem
  geohackHref : Option String
  contentText : Option String
deriving DecidableEq

/-- A page on which every observation fails: no tables, failing fetch, no
geo element, no GeoHack link, no content container. -/
def emptyPage : Page :=
  { tables := none, fetchOk := false, geo := none, geohackHref := none,
    contentText := none }

/-- `# Koordinaten parsen`: the coordinate display string and, when the
geo element's parent is a link with an `href`, the coordinate-lookup URL. -/
def coordsGeo (page : Page) (info : Info) : Info :=
  match page.geo with
  | none => info
  | some g =>
    let i := dictSet info "koordinaten" (some (Value.vStr (pyStrip g.text)))
    match g.parentLinkHref with
    | some href =>
      if href ≠ "" then dictSet i "koordinaten_url" (some (Value.vStr href))
      else i
    | none => i

/-- `# Fallback für GeoHack-Link`: when no truthy coordinate-lookup URL was
set, fall back to the first GeoHack-style link on the page. -/
def coordsFallbackUrl (page : Page) (info : Info) : Info :=
  if getTruthy (dictGet info "koordinaten_url") then info
  else
    match page.geohackHref with
    | some href => dictSet info "koordinaten_url" (some (Value.vStr href))
    | none => info

/-- `# Volltext extrahieren`: the cleaned body text, truncated to
`char_limit` characters. -/
def coordsFullText (page : Page) (charLimit : Nat) (info : Info) : Info :=
  match page.contentText with
  | some t =>
    if t ≠ "" then dictSet info "full_text" (some (Value.vStr (pyTakeStr t charLimit)))
    else info
  | none => info

/-- `_parse_coordinates_and_text`: coordinates (with optional link),
GeoHack fallback link, and the truncated body text, in source order.  A
failing `_get` makes the surrounding `except` return the empty dict. -/
def parseCoordsAndText (page : Page) (charLimit : Nat) : Info :=
  if !page.fetchOk then []
  else coordsFullText page charLimit (coordsFallbackUrl page (coordsGeo page []))

/-- `parse_page`: infobox fields, updated with coordinates and body text. -/
def parsePage (page : Page) (charLimit : Nat) : Info :=
  dictUpdate (parseInfobox page.tables) (parseCoordsAndText page charLimit)

/-! ## The `Gemeinde` record and its keyword construction -/

/-- The `Gemeinde` dataclass.  Every optional field holds the Python value
the pipeline stored (possibly `None`, modelled as `none`). -/
structure Gemeinde : Type where
  name : String
  url : String
  einwohner : Pyval := none
  einwohner_datum : Pyval := none
  flaeche_km2 : Pyval := none
  hoehe_m : Pyval := none
  gemeindeschluessel : Pyval := none
  landkreis : Pyval := none
  regierungsbezirk : Pyval := none
  bundesland : Pyval := none
  postleitzahl : Pyval := none
  vorwahl : Pyval := none
  kfz_kennzeichen : Pyval := none
  koordinaten : Pyval := none
  koordinaten_url : Pyval := none
  website : Pyval := none
  buergermeister : Pyval := none
  full_text : Pyval := none
  beschreibung_llm : Pyval := none
deriving DecidableEq

/-- The keyword parameters `Gemeinde(name=..., url=..., **parsed_data)` can
legally receive: every dataclass field except the two passed positionally. -/
def gemeindeKwargs : List String :=
  ["einwohner", "einwohner_datum", "flaeche_km2", "hoehe_m",
   "gemeindeschluessel", "landkreis", "regierungsbezirk", "bundesland",
   "postleitzahl", "vorwahl", "kfz_kennzeichen", "koordinaten",
   "koordinaten_url", "website", "buergermeister", "full_text",
   "beschreibung_llm"]

/-- `Gemeinde(name=name, url=url, **info)`: `none` models the `TypeError`
Python raises when `info` carries an unexpected keyword. -/
def mkGemeinde (name url : String) (info : Info) : Option Gemeinde :=
  if (dictKeys info).all (fun k => gemeindeKwargs.contains k) then
    some
      { name := name, url := url,
        einwohner := (dictGet info "einwohner").join,
        einwohner_datum := (dictGet info "einwohner_datum").join,
        flaeche_km2 := (dictGet info "flaeche_km2").join,
        hoehe_m := (dictGet info "hoehe_m").join,
        gemeindeschluessel := (dictGet info "gemeindeschluessel").join,
        landkreis := (dictGet info "landkreis").join,
        regierungsbezirk := (dictGet info "regierungsbezirk").join,
        bundesland := (dictGet info "bundesland").join,
        postleitzahl := (dictGet info "postleitzahl").join,
        vorwahl := (dictGet info "vorwahl").join,
        kfz_kennzeichen := (dictGet info "kfz_kennzeichen").join,
        koordinaten := (dictGet info "koordinaten").join,
        koordinaten_url := (dictGet info "koordinaten_url").join,
        website := (dictGet info "website").join,
        buergermeister := (dictGet info "buergermeister").join,
        full_text := (dictGet info "full_text").join,
        beschreibung_llm := (dictGet info "beschreibung_llm").join }
  else none

/-- `fetch_one`: parse the page and build the record; any exception (in the
model: a failing keyword construction) degrades to the minimal record. -/
def fetchOne (name url : String) (charLimit : Nat) (page : Page) : Gemeinde :=
  match mkGemeinde name url (parsePage page charLimit) with
  | some g => g
  | none => { name := name, url := url }

/-! ## `_get`: the retrying fetch primitive -/

/-- `_get`, abstracted over the outcome of each of its `max_retries`
attempts (`.ok body` for a response that passed `raise_for_status`,
`.error e` for a `RequestException` with message `e`).  The `Option String`
in the error is `last_exception`, which is `None` when no attempt ran. -/
def getRetryAux : List (Except String String) → Option String →
    Except (Option String) String
  | [], last => .error last
  | .ok body :: _, _ => .ok body
  | .error e :: rest, _ => getRetryAux rest (some e)

/-- `_get url` given the per-attempt outcomes (the list has length
`max_retries`, default 3): the first successful body, or a `ScrapingError`
carrying the last underlying cause. -/
def pyGet (attempts : List (Except String String)) : Except (Option String) String :=
  getRetryAux attempts none

/-! ## `run_extraction` -/

/-- Python list slicing `l[:k]` for an arbitrary (possibly negative)
`int` bound. -/
def pySliceTo {α : Type} (l : List α) (k : Int) : List α :=
  if k < 0 then l.take (l.length - (-k).toNat) else l.take k.toNat

/-- `all_municipalities[:limit] if limit else all_municipalities`: the
entries actually processed.  `none` models `limit=None`; `some 0` is falsy
in Python, so it also selects the whole index. -/
def toProcess (index : List (String × String)) (limit : Option Int) :
    List (String × String) :=
  match limit with
  | none => index
  | some z => if z = 0 then index else pySliceTo index z

/-- The handling of one completed future in the collection loop of
`run_extraction`: a timeout (or any exception from `future.result`)
produces the minimal fallback record, otherwise the record `fetch_one`
built.  `i` is the job's index, `j = (name, url, char_limit)`. -/
def processJob (page : Nat → Page) (timeoutAt : Nat → Bool) (i : Nat)
    (j : String × String × Nat) : Gemeinde :=
  if timeoutAt i then { name := j.1, url := j.2.1 }
  else fetchOne j.1 j.2.1 j.2.2 (page i)

/-- `run_extraction`: truncate the index, build one job per entry, process
each job, and collect in completion order.  `page i` is what job `i`'s
fetches observe, `timeoutAt i` whether its `future.result` call times out,
and `order` the completion order of the futures (a permutation of the job
indices in any real run). -/
def runExtraction (index : List (String × String)) (limit : Option Int)
    (charLimit : Nat) (page : Nat → Page) (timeoutAt : Nat → Bool)
    (order : List Nat) : List Gemeinde :=
  let jobs := (toProcess index limit).map (fun p => (p.1, p.2, charLimit))
  order.filterMap (fun i => (jobs.get? i).map (processJob page timeoutAt i))

/-- A concrete page used to exercise the pipeline: one infobox table with a
population row (value with thousands separator and reference date), an area
row and an elevation row; the second fetch fails. -/
def samplePage : Page :=
  { tables := some [⟨2, [["Einwohner:", "12.345 (31. Dez. 2022)"],
                         ["Fläche", "45,7 km²"],
                         ["Höhe", "38 m"]]⟩],
    fetchOk := false, geo := none, geohackHref := none, contentText := none }

/-- The fixed field-name set `parse_page` can populate: every key either
parsing function writes. -/
def parsePageKeys : List String :=
  ["einwohner", "einwohner_datum", "flaeche_km2", "hoehe_m",
   "gemeindeschluessel", "landkreis", "regierungsbezirk", "bundesland",
   "postleitzahl", "vorwahl", "kfz_kennzeichen", "website", "buergermeister",
   "koordinaten", "koordinaten_url", "full_text"]

/-- The raw labels `_parse_infobox` consults (population/area/elevation
labels, direct mapping sources, website and head-of-government synonyms). -/
def recognizedLabels : List String :=
  ["einwohner", "bevölkerung", "fläche", "höhe", "gemeindeschlüssel",
   "landkreis", "regierungsbezirk", "bundesland", "postleitzahl", "vorwahl",
   "kfz-kennzeichen", "website", "homepage", "bürgermeister",
   "oberbürgermeister"]

/-- Modelled from the spec: a website value "carries an explicit scheme"
when it contains the `"://"` separator (as in `https://`, `ftp://`).  This
is the spec-side notion the code's `startswith("http")` test is compared
against. -/
def specHasScheme : List Char → Bool
  | [] => false
  | c :: cs => (c = ':' && cs.take 2 == ['/', '/']) || specHasScheme cs

/-! ## Supporting lemmas: the dict model -/

theorem dictGet_set_self {α : Type} (d : List (String × α)) (k : String) (v : α) :
    dictGet (dictSet d k v) k = some v := by
  induction d with
  | nil => simp [dictSet, dictGet]
  | cons hd tl ih =>
    obtain ⟨k', v'⟩ := hd
    by_cases h : k' = k <;> simp [dictSet, dictGet, h, ih]

theorem dictGet_set_ne {α : Type} (d : List (String × α)) (k k' : String) (v : α)
    (h : k' ≠ k) : dictGet (dictSet d k v) k' = dictGet d k' := by
  induction d with
  | nil => simp [dictSet, dictGet, Ne.symm h]
  | cons hd tl ih =>
    obtain ⟨k₀, v₀⟩ := hd
    by_cases h0 : k₀ = k
    · subst h0
      simp [dictSet, dictGet, Ne.symm h]
    · by_cases h1 : k₀ = k' <;> simp [dictSet, dictGet, h0, h1, ih, h]

theorem dictKeys_set_subset {α : Type} (d : List (String × α)) (k : String) (v : α) :
    ∀ x ∈ dictKeys (dictSet d k v), x = k ∨ x ∈ dictKeys d := by
  induction d with
  | nil => simp [dictSet, dictKeys]
  | cons hd tl ih =>
    obtain ⟨k₀, v₀⟩ := hd
    by_cases h0 : k₀ = k
    · subst h0
      intro x hx
      simp [dictSet, dictKeys] at hx ⊢
      tauto
    · intro x hx
      simp only [dictSet, if_neg h0, dictKeys, List.map_cons, List.mem_cons] at hx
      rcases hx with hx | hx
      · right
        simp [dictKeys, hx]
      · rcases ih x (by simpa [dictKeys] using hx) with h1 | h1
        · exact Or.inl h1
        · right
          simp only [dictKeys, List.map_cons, List.mem_cons]
          exact Or.inr (by simpa [dictKeys] using h1)

theorem dictGet_update_not_mem {α : Type} (d1 d2 : List (String × α)) (k : String)
    (h : k ∉ dictKeys d2) : dictGet (dictUpdate d1 d2) k = dictGet d1 k := by
  induction d2 generalizing d1 with
  | nil => simp [dictUpdate]
  | cons hd tl ih =>
    obtain ⟨k₀, v₀⟩ := hd
    simp only [dictKeys, List.map_cons, List.mem_cons] at h
    push_neg at h
    have h2 : dictGet (dictUpdate (dictSet d1 k₀ v₀) tl) k =
        dictGet (dictSet d1 k₀ v₀) k :=
      ih (dictSet d1 k₀ v₀) (by simpa [dictKeys] using h.2)
    have h3 := dictGet_set_ne d1 k₀ k v₀ h.1
    show dictGet (dictUpdate (dictSet d1 k₀ v₀) tl) k = dictGet d1 k
    rw [h2, h3]

theorem dictKeys_update_subset {α : Type} (d1 d2 : List (String × α)) :
    ∀ x ∈ dictKeys (dictUpdate d1 d2), x ∈ dictKeys d1 ∨ x ∈ dictKeys d2 := by
  induction d2 generalizing d1 with
  | nil =>
    intro x hx
    exact Or.inl (by simpa [dictUpdate] using hx)
  | cons hd tl ih =>
    obtain ⟨k₀, v₀⟩ := hd
    intro x hx
    have hx' : x ∈ dictKeys (dictUpdate (dictSet d1 k₀ v₀) tl) := hx
    rcases ih (dictSet d1 k₀ v₀) x hx' with h | h
    · rcases dictKeys_set_subset d1 k₀ v₀ x h with h1 | h1
      · right
        simp [dictKeys, h1]
      · exact Or.inl h1
    · right
      simp only [dictKeys, List.map_cons, List.mem_cons]
      simp only [dictKeys] at h
      tauto

/-! ## Supporting lemmas: characters and runs -/

theorem pyIsSpace_cases (c : Char) (h : pyIsSpace c = true) :
    c = ' ' ∨ c = '\t' ∨ c = '\n' ∨ c = '\r' := by
  unfold pyIsSpace at h
  simp only [Bool.or_eq_true, decide_eq_true_eq] at h
  tauto

theorem isDigit_not_space (c : Char) (h : c.isDigit = true) : pyIsSpace c = false := by
  cases hs : pyIsSpace c
  · rfl
  · rcases pyIsSpace_cases c hs with h' | h' | h' | h' <;> subst h' <;> simp_all

theorem isDigitOrDot_not_space (c : Char) (h : isDigitOrDot c = true) :
    pyIsSpace c = false := by
  unfold isDigitOrDot at h
  simp only [Bool.or_eq_true, decide_eq_true_eq] at h
  rcases h with h | h
  · exact isDigit_not_space c h
  · subst h; rfl

theorem isDigitCommaDot_not_space (c : Char) (h : isDigitCommaDot c = true) :
    pyIsSpace c = false := by
  unfold isDigitCommaDot at h
  simp only [Bool.or_eq_true, decide_eq_true_eq] at h
  rcases h with (h | h) | h
  · exact isDigit_not_space c h
  · subst h; rfl
  · subst h; rfl

theorem isDigitOrDot_ne_lparen (c : Char) (h : isDigitOrDot c = true) : c ≠ '(' := by
  intro heq
  subst heq
  exact absurd h (by decide)

theorem isDigit_ne_dot (c : Char) (h : c.isDigit = true) : c ≠ '.' := by
  intro heq
  subst heq
  exact absurd h (by decide)

theorem isDigit_ne_comma (c : Char) (h : c.isDigit = true) : c ≠ ',' := by
  intro heq
  subst heq
  exact absurd h (by decide)

theorem takeWhile_append_stop (pr : Char → Bool) (xs : List Char) (y : Char)
    (ys : List Char) (hxs : ∀ x ∈ xs, pr x = true) (hy : pr y = false) :
    (xs ++ y :: ys).takeWhile pr = xs := by
  induction xs with
  | nil => simp [List.takeWhile_cons, hy]
  | cons a l ih =>
    have ha : pr a = true := hxs a (by simp)
    have ih' := ih (fun x hx => hxs x (by simp [hx]))
    simp [List.takeWhile_cons, ha, ih']

theorem stripChars_eq_self (cs : List Char)
    (h1 : ∀ c, cs.head? = some c → pyIsSpace c = false)
    (h2 : ∀ c, cs.getLast? = some c → pyIsSpace c = false) :
    stripChars cs = cs := by
  unfold stripChars
  cases cs with
  | nil => rfl
  | cons a l =>
    have ha : pyIsSpace a = false := h1 a rfl
    rw [List.dropWhile_cons_of_neg (by simp [ha])]
    cases hrev : (a :: l).reverse with
    | nil => exact absurd hrev (by simp)
    | cons b m =>
      have hb : (a :: l).getLast? = some b := by
        rw [← List.head?_reverse, hrev]
        rfl
      have hbs : pyIsSpace b = false := h2 b hb
      have hdw : List.dropWhile pyIsSpace (b :: m) = b :: m :=
        List.dropWhile_cons_of_neg (by simp [hbs])
      rw [hdw, ← hrev, List.reverse_reverse]

theorem reSearchClass_run (pr : Char → Bool) (xs : List Char) (y : Char)
    (ys : List Char) (hne : xs ≠ []) (hall : ∀ x ∈ xs, pr x = true)
    (hy : pr y = false) :
    reSearchClass pr (xs ++ y :: ys) = some xs := by
  cases xs with
  | nil => exact absurd rfl hne
  | cons c l =>
    have hc : pr c = true := hall c (by simp)
    have htw := takeWhile_append_stop pr l y ys (fun x hx => hall x (by simp [hx])) hy
    simp [reSearchClass, hc, htw]

theorem reParenGroup_skip (xs rest : List Char) (h : ∀ c ∈ xs, c ≠ '(') :
    reParenGroup (xs ++ rest) = reParenGroup rest := by
  induction xs with
  | nil => rfl
  | cons a l ih =>
    have ha : a ≠ '(' := h a (by simp)
    simp only [List.cons_append, reParenGroup, if_neg ha]
    exact ih (fun c hc => h c (by simp [hc]))

theorem reParenGroup_found (d ys : List Char) (hd : ∀ c ∈ d, c ≠ ')') :
    reParenGroup ('(' :: (d ++ ')' :: ys)) = some d := by
  have hmem : ')' ∈ d ++ ')' :: ys := by simp
  have htw := takeWhile_append_stop (fun c => !decide (c = ')')) d ')' ys
    (fun x hx => by simp [hd x hx]) (by simp)
  simp [reParenGroup, hmem, htw]

/-! ## Supporting lemmas: `first` and the extraction stages -/

theorem first_none (data : List (String × String)) (ks : List String)
    (h : ∀ k ∈ ks, dictGet data k = none) : first data ks = none := by
  induction ks with
  | nil => rfl
  | cons k ks ih =>
    simp only [first, h k (by simp)]
    exact ih (fun k' hk' => h k' (by simp [hk']))

theorem first_head (data : List (String × String)) (k : String) (ks : List String)
    (v : String) (hv : dictGet data k = some v) (hne : v ≠ "") :
    first data (k :: ks) = some v := by
  simp [first, hv, hne]

theorem stageEinwohner_no (data : List (String × String)) (info : Info)
    (h : first data ["einwohner", "bevölkerung"] = none) :
    stageEinwohner data info = info := by
  simp [stageEinwohner, h]

theorem stageFlaeche_no (data : List (String × String)) (info : Info)
    (h : dictGet data "fläche" = none) :
    stageFlaeche data info = info := by
  simp [stageFlaeche, h]

theorem stageHoehe_no (data : List (String × String)) (info : Info)
    (h : dictGet data "höhe" = none) :
    stageHoehe data info = info := by
  simp [stageHoehe, h]

theorem foldl_mappedStep_no (data : List (String × String))
    (ms : List (String × String)) (info : Info)
    (h : ∀ kv ∈ ms, dictGet data kv.1 = none) :
    List.foldl (mappedStep data) info ms = info := by
  induction ms generalizing info with
  | nil => rfl
  | cons kv tl ih =>
    have hkv : mappedStep data info kv = info := by
      simp [mappedStep, h kv (by simp)]
    simp only [List.foldl, hkv]
    exact ih info (fun kv' hkv' => h kv' (by simp [hkv']))

theorem stageWebsite_no (data : List (String × String)) (info : Info)
    (h : first data ["website", "homepage"] = none) :
    stageWebsite data info = info := by
  simp [stageWebsite, h]

theorem stageBuergermeister_no (data : List (String × String)) (info : Info)
    (h : first data ["bürgermeister", "oberbürgermeister"] = none) :
    stageBuergermeister data info = info := by
  simp [stageBuergermeister, h]

theorem dictGet_stageEinwohner_ne (data : List (String × String)) (info : Info)
    (k : String) (h1 : k ≠ "einwohner") (h2 : k ≠ "einwohner_datum") :
    dictGet (stageEinwohner data info) k = dictGet info k := by
  unfold stageEinwohner
  split
  · rfl
  · split <;> split <;> simp [dictGet_set_ne, h1, h2]

theorem dictGet_stageFlaeche_ne (data : List (String × String)) (info : Info)
    (k : String) (h : k ≠ "flaeche_km2") :
    dictGet (stageFlaeche data info) k = dictGet info k := by
  unfold stageFlaeche
  split
  · rfl
  · split
    · split <;> simp [dictGet_set_ne, h]
    · rfl

theorem dictGet_stageHoehe_ne (data : List (String × String)) (info : Info)
    (k : String) (h : k ≠ "hoehe_m") :
    dictGet (stageHoehe data info) k = dictGet info k := by
  unfold stageHoehe
  split
  · rfl
  · split
    · split <;> simp [dictGet_set_ne, h]
    · rfl

theorem dictGet_foldl_mappedStep_ne (data : List (String × String))
    (ms : List (String × String)) (info : Info) (k : String)
    (h : k ∉ ms.map Prod.snd) :
    dictGet (List.foldl (mappedStep data) info ms) k = dictGet info k := by
  induction ms generalizing info with
  | nil => rfl
  | cons kv tl ih =>
    simp only [List.map_cons, List.mem_cons] at h
    push_neg at h
    have hstep : dictGet (mappedStep data info kv) k = dictGet info k := by
      unfold mappedStep
      split
      · split <;> simp [dictGet_set_ne, h.1]
      · rfl
    simp only [List.foldl]
    rw [ih (mappedStep data info kv) h.2, hstep]

theorem dictGet_stageMapped_ne (data : List (String × String)) (info : Info)
    (k : String) (h : k ∉ fieldMappings.map Prod.snd) :
    dictGet (stageMapped data info) k = dictGet info k :=
  dictGet_foldl_mappedStep_ne data fieldMappings info k h

theorem dictGet_stageWebsite_ne (data : List (String × String)) (info : Info)
    (k : String) (h : k ≠ "website") :
    dictGet (stageWebsite data info) k = dictGet info k := by
  unfold stageWebsite
  split <;> simp [dictGet_set_ne, h]

theorem dictGet_stageBuergermeister_ne (data : List (String × String)) (info : Info)
    (k : String) (h : k ≠ "buergermeister") :
    dictGet (stageBuergermeister data info) k = dictGet info k := by
  unfold stageBuergermeister
  split <;> simp [dictGet_set_ne, h]

/-! ## Supporting lemmas: shape of the numeric fields -/

theorem safeInt_nonneg (s : String) (n : Int) (h : safeInt s = some n) : 0 ≤ n := by
  simp only [safeInt] at h
  split at h
  · exact absurd h (by simp)
  · simp only [Option.some.injEq] at h
    subst h
    exact Int.ofNat_nonneg _

theorem pyFloatDigits_nonneg (cs : List Char) (q : ℚ)
    (h : pyFloatDigits cs = some q) : 0 ≤ q := by
  simp only [pyFloatDigits] at h
  split at h
  · split at h
    · exact absurd h (by simp)
    · simp only [Option.some.injEq] at h
      subst h
      positivity
  · split at h
    · exact absurd h (by simp)
    · split at h
      · exact absurd h (by simp)
      · simp only [Option.some.injEq] at h
        subst h
        positivity

theorem safeFloat_nonneg (s : String) (q : ℚ) (h : safeFloat s = some q) : 0 ≤ q :=
  pyFloatDigits_nonneg _ q h

theorem dictGet_stageEinwohner_einwohner (data : List (String × String)) (info : Info) :
    dictGet (stageEinwohner data info) "einwohner" = dictGet info "einwohner" ∨
    ∃ s : String,
      dictGet (stageEinwohner data info) "einwohner" =
        some ((safeInt s).map Value.vInt) := by
  unfold stageEinwohner
  rcases hf : first data ["einwohner", "bevölkerung"] with _ | t
  · left; rfl
  · simp only []
    rcases hs : reSearchClass isDigitOrDot t.data with _ | m <;>
      rcases hg : reParenGroup t.data with _ | g
    · left; rfl
    · left
      exact dictGet_set_ne info "einwohner_datum" "einwohner" _ (by decide)
    · right
      exact ⟨⟨m⟩, dictGet_set_self _ _ _⟩
    · right
      refine ⟨⟨m⟩, ?_⟩
      rw [dictGet_set_ne _ "einwohner_datum" "einwohner" _ (by decide)]
      exact dictGet_set_self _ _ _

theorem dictGet_stageHoehe_hoehe (data : List (String × String)) (info : Info) :
    dictGet (stageHoehe data info) "hoehe_m" = dictGet info "hoehe_m" ∨
    ∃ s : String,
      dictGet (stageHoehe data info) "hoehe_m" =
        some ((safeInt s).map Value.vInt) := by
  unfold stageHoehe
  rcases hf : dictGet data "höhe" with _ | t
  · left; rfl
  · simp only []
    by_cases ht : t = ""
    · simp only [ht]
      left; rfl
    · simp only [if_pos ht]
      rcases hs : reSearchClass Char.isDigit t.data with _ | m
      · left; rfl
      · right
        exact ⟨⟨m⟩, dictGet_set_self _ _ _⟩

theorem dictGet_stageFlaeche_flaeche (data : List (String × String)) (info : Info) :
    dictGet (stageFlaeche data info) "flaeche_km2" = dictGet info "flaeche_km2" ∨
    ∃ s : String,
      dictGet (stageFlaeche data info) "flaeche_km2" =
        some ((safeFloat s).map Value.vRat) := by
  unfold stageFlaeche
  rcases hf : dictGet data "fläche" with _ | t
  · left; rfl
  · simp only []
    by_cases ht : t = ""
    · simp only [ht]
      left; rfl
    · simp only [if_pos ht]
      rcases hs : reSearchClass isDigitCommaDot t.data with _ | m
      · left; rfl
      · right
        exact ⟨⟨m⟩, dictGet_set_self _ _ _⟩

theorem dictGet_parseInfoboxData_einwohner (data : List (String × String)) :
    dictGet (parseInfoboxData data) "einwohner" = none ∨
    ∃ s : String,
      dictGet (parseInfoboxData data) "einwohner" =
        some ((safeInt s).map Value.vInt) := by
  unfold parseInfoboxData
  rw [dictGet_stageBuergermeister_ne _ _ _ (by decide),
    dictGet_stageWebsite_ne _ _ _ (by decide),
    dictGet_stageMapped_ne _ _ _ (by decide),
    dictGet_stageHoehe_ne _ _ _ (by decide),
    dictGet_stageFlaeche_ne _ _ _ (by decide)]
  rcases dictGet_stageEinwohner_einwohner data [] with h | h
  · left
    rw [h]
    rfl
  · right
    exact h

theorem dictGet_parseInfoboxData_hoehe (data : List (String × String)) :
    dictGet (parseInfoboxData data) "hoehe_m" = none ∨
    ∃ s : String,
      dictGet (parseInfoboxData data) "hoehe_m" =
        some ((safeInt s).map Value.vInt) := by
  unfold parseInfoboxData
  rw [dictGet_stageBuergermeister_ne _ _ _ (by decide),
    dictGet_stageWebsite_ne _ _ _ (by decide),
    dictGet_stageMapped_ne _ _ _ (by decide)]
  rcases dictGet_stageHoehe_hoehe data (stageFlaeche data (stageEinwohner data [])) with h | h
  · left
    rw [h, dictGet_stageFlaeche_ne _ _ _ (by decide),
      dictGet_stageEinwohner_ne _ _ _ (by decide) (by decide)]
    rfl
  · right
    exact h

theorem dictGet_parseInfoboxData_flaeche (data : List (String × String)) :
    dictGet (parseInfoboxData data) "flaeche_km2" = none ∨
    ∃ s : String,
      dictGet (parseInfoboxData data) "flaeche_km2" =
        some ((safeFloat s).map Value.vRat) := by
  unfold parseInfoboxData
  rw [dictGet_stageBuergermeister_ne _ _ _ (by decide),
    dictGet_stageWebsite_ne _ _ _ (by decide),
    dictGet_stageMapped_ne _ _ _ (by decide),
    dictGet_stageHoehe_ne _ _ _ (by decide)]
  rcases dictGet_stageFlaeche_flaeche data (stageEinwohner data []) with h | h
  · left
    rw [h, dictGet_stageEinwohner_ne _ _ _ (by decide) (by decide)]
    rfl
  · right
    exact h

/-! ## Supporting lemmas: the key sets of the parsers -/

theorem stageEinwohner_keys (data : List (String × String)) (info : Info) :
    ∀ k ∈ dictKeys (stageEinwohner data info),
      k = "einwohner" ∨ k = "einwohner_datum" ∨ k ∈ dictKeys info := by
  unfold stageEinwohner
  rcases hf : first data ["einwohner", "bevölkerung"] with _ | t
  · intro k hk; tauto
  · simp only []
    rcases hs : reSearchClass isDigitOrDot t.data with _ | m <;>
      rcases hg : reParenGroup t.data with _ | g <;> intro k hk
    · tauto
    · rcases dictKeys_set_subset info "einwohner_datum" _ k hk with h | h <;> tauto
    · rcases dictKeys_set_subset info "einwohner" _ k hk with h | h <;> tauto
    · rcases dictKeys_set_subset _ "einwohner_datum" _ k hk with h | h
      · tauto
      · rcases dictKeys_set_subset info "einwohner" _ k h with h1 | h1 <;> tauto

theorem stageFlaeche_keys (data : List (String × String)) (info : Info) :
    ∀ k ∈ dictKeys (stageFlaeche data info),
      k = "flaeche_km2" ∨ k ∈ dictKeys info := by
  unfold stageFlaeche
  rcases hf : dictGet data "fläche" with _ | t
  · intro k hk; tauto
  · simp only []
    by_cases ht : t = ""
    · simp only [ht]
      intro k hk; tauto
    · simp only [if_pos ht]
      rcases hs : reSearchClass isDigitCommaDot t.data with _ | m <;> intro k hk
      · tauto
      · exact dictKeys_set_subset info "flaeche_km2" _ k hk

theorem stageHoehe_keys (data : List (String × String)) (info : Info) :
    ∀ k ∈ dictKeys (stageHoehe data info),
      k = "hoehe_m" ∨ k ∈ dictKeys info := by
  unfold stageHoehe
  rcases hf : dictGet data "höhe" with _ | t
  · intro k hk; tauto
  · simp only []
    by_cases ht : t = ""
    · simp only [ht]
      intro k hk; tauto
    · simp only [if_pos ht]
      rcases hs : reSearchClass Char.isDigit t.data with _ | m <;> intro k hk
      · tauto
      · exact dictKeys_set_subset info "hoehe_m" _ k hk

theorem foldl_mappedStep_keys (data : List (String × String))
    (ms : List (String × String)) (info : Info) :
    ∀ k ∈ dictKeys (List.foldl (mappedStep data) info ms),
      k ∈ ms.map Prod.snd ∨ k ∈ dictKeys info := by
  induction ms generalizing info with
  | nil => intro k hk; tauto
  | cons kv tl ih =>
    intro k hk
    have hk' := ih (mappedStep data info kv) k hk
    rcases hk' with h | h
    · left; simp [h]
    · have hstep : ∀ x ∈ dictKeys (mappedStep data info kv),
          x = kv.2 ∨ x ∈ dictKeys info := by
        unfold mappedStep
        rcases hg : dictGet data kv.1 with _ | v
        · intro x hx; tauto
        · simp only []
          by_cases hv : v = ""
          · simp only [hv]
            intro x hx; tauto
          · simp only [if_pos hv]
            exact dictKeys_set_subset info kv.2 _
      rcases hstep k h with h1 | h1
      · left; simp [h1]
      · right; exact h1

theorem stageWebsite_keys (data : List (String × String)) (info : Info) :
    ∀ k ∈ dictKeys (stageWebsite data info),
      k = "website" ∨ k ∈ dictKeys info := by
  unfold stageWebsite
  rcases hf : first data ["website", "homepage"] with _ | w
  · intro k hk; tauto
  · exact dictKeys_set_subset info "website" _

theorem stageBuergermeister_keys (data : List (String × String)) (info : Info) :
    ∀ k ∈ dictKeys (stageBuergermeister data info),
      k = "buergermeister" ∨ k ∈ dictKeys info := by
  unfold stageBuergermeister
  rcases hf : first data ["bürgermeister", "oberbürgermeister"] with _ | b
  · intro k hk; tauto
  · exact dictKeys_set_subset info "buergermeister" _

theorem parseInfoboxData_keys (data : List (String × String)) :
    ∀ k ∈ dictKeys (parseInfoboxData data), k ∈ parsePageKeys := by
  unfold parseInfoboxData
  intro k hk
  rcases stageBuergermeister_keys data _ k hk with h | h
  · simp [parsePageKeys, h]
  rcases stageWebsite_keys data _ k h with h | h
  · simp [parsePageKeys, h]
  rcases foldl_mappedStep_keys data fieldMappings _ k h with h | h
  · revert h
    simp only [fieldMappings, List.map_cons, List.map_nil, List.mem_cons,
      List.not_mem_nil, or_false, parsePageKeys]
    intro h
    rcases h with h | h | h | h | h | h | h <;> simp [h]
  rcases stageHoehe_keys data _ k h with h | h
  · simp [parsePageKeys, h]
  rcases stageFlaeche_keys data _ k h with h | h
  · simp [parsePageKeys, h]
  rcases stageEinwohner_keys data _ k h with h | h | h
  · simp [parsePageKeys, h]
  · simp [parsePageKeys, h]
  · simp [dictKeys] at h

theorem parseInfobox_keys (tables : Option (List Table)) :
    ∀ k ∈ dictKeys (parseInfobox tables), k ∈ parsePageKeys := by
  intro k hk
  rcases tables with _ | ts
  · simp [parseInfobox, dictKeys] at hk
  · unfold parseInfobox at hk
    have hk1 : k ∈ dictKeys
        (if ts = [] then []
         else
           match List.find? (fun t : Table => decide (2 ≤ t.ncols)) ts with
           | none => []
           | some t =>
             if lowerKeys t.rows = [] then []
             else parseInfoboxData (lowerKeys t.rows)) := hk
    split at hk1
    · simp [dictKeys] at hk1
    · split at hk1
      · simp [dictKeys] at hk1
      · split at hk1
        · simp [dictKeys] at hk1
        · exact parseInfoboxData_keys _ k hk1

theorem coordsGeo_keys (page : Page) (info : Info) :
    ∀ k ∈ dictKeys (coordsGeo page info),
      k = "koordinaten" ∨ k = "koordinaten_url" ∨ k ∈ dictKeys info := by
  unfold coordsGeo
  rcases hg : page.geo with _ | g
  · intro k hk; tauto
  · simp only []
    rcases hh : g.parentLinkHref with _ | href
    · intro k hk
      rcases dictKeys_set_subset info "koordinaten" _ k hk with h | h <;> tauto
    · simp only []
      by_cases hne : href = ""
      · simp only [hne]
        intro k hk
        rcases dictKeys_set_subset info "koordinaten" _ k hk with h | h <;> tauto
      · simp only [if_pos hne]
        intro k hk
        rcases dictKeys_set_subset _ "koordinaten_url" _ k hk with h | h
        · tauto
        · rcases dictKeys_set_subset info "koordinaten" _ k h with h1 | h1 <;> tauto

theorem coordsFallbackUrl_keys (page : Page) (info : Info) :
    ∀ k ∈ dictKeys (coordsFallbackUrl page info),
      k = "koordinaten_url" ∨ k ∈ dictKeys info := by
  unfold coordsFallbackUrl
  by_cases ht : getTruthy (dictGet info "koordinaten_url")
  · simp only [if_pos ht]
    intro k hk; tauto
  · simp only [if_neg ht]
    rcases hh : page.geohackHref with _ | href
    · intro k hk; tauto
    · exact dictKeys_set_subset info "koordinaten_url" _

theorem coordsFullText_keys (page : Page) (charLimit : Nat) (info : Info) :
    ∀ k ∈ dictKeys (coordsFullText page charLimit info),
      k = "full_text" ∨ k ∈ dictKeys info := by
  unfold coordsFullText
  rcases hc : page.contentText with _ | t
  · intro k hk; tauto
  · simp only []
    by_cases ht : t = ""
    · simp only [ht]
      intro k hk; tauto
    · simp only [if_pos ht]
      exact dictKeys_set_subset info "full_text" _

theorem parseCoordsAndText_keys (page : Page) (charLimit : Nat) :
    ∀ k ∈ dictKeys (parseCoordsAndText page charLimit),
      k = "koordinaten" ∨ k = "koordinaten_url" ∨ k = "full_text" := by
  intro k hk
  by_cases hf : page.fetchOk
  · simp only [parseCoordsAndText, hf, Bool.not_true, Bool.false_eq_true,
      if_false] at hk
    rcases coordsFullText_keys page charLimit _ k hk with h | h
    · tauto
    rcases coordsFallbackUrl_keys page _ k h with h | h
    · tauto
    rcases coordsGeo_keys page [] k h with h | h | h
    · tauto
    · tauto
    · simp [dictKeys] at h
  · have hf' : page.fetchOk = false := by simpa using hf
    simp only [parseCoordsAndText, hf', Bool.not_false, if_true] at hk
    simp [dictKeys] at hk

/-! ## Supporting lemmas: `parse_page`, `Gemeinde(**info)` and `fetch_one` -/

theorem parseInfobox_eq (tables : Option (List Table)) :
    parseInfobox tables = [] ∨
    ∃ data, parseInfobox tables = parseInfoboxData data := by
  rcases tables with _ | ts
  · left; rfl
  · have hdef : parseInfobox (some ts) =
        (if ts = [] then []
         else
           match List.find? (fun t : Table => decide (2 ≤ t.ncols)) ts with
           | none => []
           | some t =>
             if lowerKeys t.rows = [] then []
             else parseInfoboxData (lowerKeys t.rows)) := rfl
    rw [hdef]
    by_cases h0 : ts = []
    · left; rw [if_pos h0]
    · rw [if_neg h0]
      rcases hfind : List.find? (fun t : Table => decide (2 ≤ t.ncols)) ts with _ | t
      · left; rfl
      · by_cases hd : lowerKeys t.rows = []
        · left
          show (if lowerKeys t.rows = [] then []
                else parseInfoboxData (lowerKeys t.rows)) = []
          rw [if_pos hd]
        · right
          refine ⟨lowerKeys t.rows, ?_⟩
          show (if lowerKeys t.rows = [] then []
                else parseInfoboxData (lowerKeys t.rows)) = _
          rw [if_neg hd]

theorem dictGet_parsePage_not_coords (page : Page) (charLimit : Nat) (k : String)
    (h1 : k ≠ "koordinaten") (h2 : k ≠ "koordinaten_url") (h3 : k ≠ "full_text") :
    dictGet (parsePage page charLimit) k = dictGet (parseInfobox page.tables) k := by
  unfold parsePage
  refine dictGet_update_not_mem _ _ _ ?_
  intro hmem
  rcases parseCoordsAndText_keys page charLimit k hmem with h | h | h
  · exact h1 h
  · exact h2 h
  · exact h3 h

theorem dictGet_parsePage_einwohner (page : Page) (charLimit : Nat) :
    dictGet (parsePage page charLimit) "einwohner" = none ∨
    ∃ s : String,
      dictGet (parsePage page charLimit) "einwohner" =
        some ((safeInt s).map Value.vInt) := by
  rw [dictGet_parsePage_not_coords page charLimit _ (by decide) (by decide) (by decide)]
  rcases parseInfobox_eq page.tables with h | ⟨data, h⟩
  · left; rw [h]; rfl
  · rw [h]; exact dictGet_parseInfoboxData_einwohner data

theorem dictGet_parsePage_hoehe (page : Page) (charLimit : Nat) :
    dictGet (parsePage page charLimit) "hoehe_m" = none ∨
    ∃ s : String,
      dictGet (parsePage page charLimit) "hoehe_m" =
        some ((safeInt s).map Value.vInt) := by
  rw [dictGet_parsePage_not_coords page charLimit _ (by decide) (by decide) (by decide)]
  rcases parseInfobox_eq page.tables with h | ⟨data, h⟩
  · left; rw [h]; rfl
  · rw [h]; exact dictGet_parseInfoboxData_hoehe data

theorem dictGet_parsePage_flaeche (page : Page) (charLimit : Nat) :
    dictGet (parsePage page charLimit) "flaeche_km2" = none ∨
    ∃ s : String,
      dictGet (parsePage page charLimit) "flaeche_km2" =
        some ((safeFloat s).map Value.vRat) := by
  rw [dictGet_parsePage_not_coords page charLimit _ (by decide) (by decide) (by decide)]
  rcases parseInfobox_eq page.tables with h | ⟨data, h⟩
  · left; rw [h]; rfl
  · rw [h]; exact dictGet_parseInfoboxData_flaeche data

theorem mkGemeinde_parsePage_isSome (name url : String) (page : Page)
    (charLimit : Nat) :
    (mkGemeinde name url (parsePage page charLimit)).isSome = true := by
  have hsub : ∀ x ∈ parsePageKeys, gemeindeKwargs.contains x = true := by decide
  have hall : ((dictKeys (parsePage page charLimit)).all
      (fun k => gemeindeKwargs.contains k)) = true := by
    rw [List.all_eq_true]
    intro k hk
    refine hsub k ?_
    rcases dictKeys_update_subset _ _ k hk with h | h
    · exact parseInfobox_keys _ k h
    · rcases parseCoordsAndText_keys page charLimit k h with h1 | h1 | h1 <;>
        simp [parsePageKeys, h1]
  unfold mkGemeinde
  rw [if_pos hall]
  rfl

theorem mkGemeinde_some_fields (name url : String) (info : Info) (g : Gemeinde)
    (h : mkGemeinde name url info = some g) :
    g.einwohner = (dictGet info "einwohner").join ∧
    g.hoehe_m = (dictGet info "hoehe_m").join ∧
    g.flaeche_km2 = (dictGet info "flaeche_km2").join ∧
    g.website = (dictGet info "website").join := by
  unfold mkGemeinde at h
  split at h
  · simp only [Option.some.injEq] at h
    subst h
    exact ⟨rfl, rfl, rfl, rfl⟩
  · exact absurd h (by simp)

theorem fetchOne_eq_mk (name url : String) (charLimit : Nat) (page : Page) :
    ∃ g, mkGemeinde name url (parsePage page charLimit) = some g ∧
      fetchOne name url charLimit page = g := by
  have h := mkGemeinde_parsePage_isSome name url page charLimit
  rcases hm : mkGemeinde name url (parsePage page charLimit) with _ | g
  · rw [hm] at h
    simp at h
  · refine ⟨g, rfl, ?_⟩
    unfold fetchOne
    rw [hm]

theorem fetchOne_numeric (name url : String) (charLimit : Nat) (page : Page) :
    ((fetchOne name url charLimit page).einwohner = none ∨
      ∃ n : Int, (fetchOne name url charLimit page).einwohner =
        some (Value.vInt n) ∧ 0 ≤ n) ∧
    ((fetchOne name url charLimit page).hoehe_m = none ∨
      ∃ n : Int, (fetchOne name url charLimit page).hoehe_m =
        some (Value.vInt n) ∧ 0 ≤ n) ∧
    ((fetchOne name url charLimit page).flaeche_km2 = none ∨
      ∃ q : ℚ, (fetchOne name url charLimit page).flaeche_km2 =
        some (Value.vRat q) ∧ 0 ≤ q) := by
  obtain ⟨g, hm, hfe⟩ := fetchOne_eq_mk name url charLimit page
  obtain ⟨he, hh, hf, -⟩ := mkGemeinde_some_fields name url _ g hm
  rw [hfe]
  refine ⟨?_, ?_, ?_⟩
  · rw [he]
    rcases dictGet_parsePage_einwohner page charLimit with h | ⟨s, h⟩
    · left; rw [h]; rfl
    · rw [h]
      rcases hs : safeInt s with _ | n
      · left; rfl
      · right
        exact ⟨n, rfl, safeInt_nonneg s n hs⟩
  · rw [hh]
    rcases dictGet_parsePage_hoehe page charLimit with h | ⟨s, h⟩
    · left; rw [h]; rfl
    · rw [h]
      rcases hs : safeInt s with _ | n
      · left; rfl
      · right
        exact ⟨n, rfl, safeInt_nonneg s n hs⟩
  · rw [hf]
    rcases dictGet_parsePage_flaeche page charLimit with h | ⟨s, h⟩
    · left; rw [h]; rfl
    · rw [h]
      rcases hs : safeFloat s with _ | q
      · left; rfl
      · right
        exact ⟨q, rfl, safeFloat_nonneg s q hs⟩

theorem mem_runExtraction_eq (index : List (String × String)) (limit : Option Int)
    (charLimit : Nat) (page : Nat → Page) (timeoutAt : Nat → Bool)
    (order : List Nat) (g : Gemeinde)
    (hg : g ∈ runExtraction index limit charLimit page timeoutAt order) :
    ∃ i j,
      ((toProcess index limit).map (fun p => (p.1, p.2, charLimit))).get? i = some j ∧
      g = processJob page timeoutAt i j := by
  unfold runExtraction at hg
  simp only [List.mem_filterMap] at hg
  obtain ⟨i, _hi, hgi⟩ := hg
  rcases hj : ((toProcess index limit).map (fun p => (p.1, p.2, charLimit))).get? i
    with _ | j
  · rw [hj] at hgi
    simp at hgi
  · rw [hj] at hgi
    simp only [Option.map_some', Option.some.injEq] at hgi
    exact ⟨i, j, hj, hgi.symm⟩

/-- **C8** (claim C8): every record produced by `run_extraction` has, when
present, a non-negative integer population, a non-negative integer
elevation, and a non-negative float area (modelled exactly in `ℚ`); a
present numeric attribute is always the value its type-specific parser
produced, never a raw string. -/
theorem run_extraction_numeric_invariants (index : List (String × String))
    (limit : Option Int) (charLimit : Nat) (page : Nat → Page)
    (timeoutAt : Nat → Bool) (order : List Nat) (g : Gemeinde)
    (hg : g ∈ runExtraction index limit charLimit page timeoutAt order) :
    (g.einwohner = none ∨
      ∃ n : Int, g.einwohner = some (Value.vInt n) ∧ 0 ≤ n) ∧
    (g.hoehe_m = none ∨
      ∃ n : Int, g.hoehe_m = some (Value.vInt n) ∧ 0 ≤ n) ∧
    (g.flaeche_km2 = none ∨
      ∃ q : ℚ, g.flaeche_km2 = some (Value.vRat q) ∧ 0 ≤ q) := by
  obtain ⟨i, j, _hj, hgeq⟩ :=
    mem_runExtraction_eq index limit charLimit page timeoutAt order g hg
  subst hgeq
  unfold processJob
  by_cases ht : timeoutAt i = true
  · rw [if_pos ht]
    exact ⟨Or.inl rfl, Or.inl rfl, Or.inl rfl⟩
  · rw [if_neg ht]
    exact fetchOne_numeric j.1 j.2.1 j.2.2 (page i)

/-- Witness for C8: a run over one entity whose page carries population
`"12.345 (31. Dez. 2022)"`, area `"45,7 km²"` and elevation `"38 m"`; the
extracted values are the non-negative `12345`, `38` and `457/10`. -/
theorem run_extraction_numeric_invariants_witness :
    ((fetchOne "Aachen" "u" 50 samplePage).einwohner = none ∨
      ∃ n : Int, (fetchOne "Aachen" "u" 50 samplePage).einwohner =
        some (Value.vInt n) ∧ 0 ≤ n) ∧
    ((fetchOne "Aachen" "u" 50 samplePage).hoehe_m = none ∨
      ∃ n : Int, (fetchOne "Aachen" "u" 50 samplePage).hoehe_m =
        some (Value.vInt n) ∧ 0 ≤ n) ∧
    ((fetchOne "Aachen" "u" 50 samplePage).flaeche_km2 = none ∨
      ∃ q : ℚ, (fetchOne "Aachen" "u" 50 samplePage).flaeche_km2 =
        some (Value.vRat q) ∧ 0 ≤ q) :=
  run_extraction_numeric_invariants [("Aachen", "u")] none 50
    (fun _ => samplePage) (fun _ => false) [0]
    (fetchOne "Aachen" "u" 50 samplePage)
    (by
      have hrun : runExtraction [("Aachen", "u")] none 50 (fun _ => samplePage)
          (fun _ => false) [0] = [fetchOne "Aachen" "u" 50 samplePage] := rfl
      rw [hrun]
      exact List.mem_singleton_self _)

/-- **C9** (claim C9): for every page and character budget, `parse_page`
returns a mapping whose keys all lie in the fixed field-name set of the
`Gemeinde` dataclass, so the keyword expansion
`Gemeinde(name=..., url=..., **parsed_data)` in `fetch_one` never fails
with an unexpected-keyword `TypeError`. -/
theorem parse_page_keys_safe (page : Page) (charLimit : Nat)
    (name url : String) :
    (∀ k ∈ dictKeys (parsePage page charLimit), k ∈ parsePageKeys) ∧
    (mkGemeinde name url (parsePage page charLimit)).isSome = true := by
  refine ⟨?_, mkGemeinde_parsePage_isSome name url page charLimit⟩
  intro k hk
  rcases dictKeys_update_subset _ _ k hk with h | h
  · exact parseInfobox_keys _ k h
  · rcases parseCoordsAndText_keys page charLimit k h with h1 | h1 | h1 <;>
      simp [parsePageKeys, h1]

/-! ## Supporting lemmas: the orchestrator -/

theorem runExtraction_length_aux (jobs : List (String × String × Nat))
    (page : Nat → Page) (timeoutAt : Nat → Bool) :
    ∀ os : List Nat, (∀ i ∈ os, i < jobs.length) →
      (os.filterMap
        (fun i => (jobs.get? i).map (processJob page timeoutAt i))).length =
        os.length := by
  intro os
  induction os with
  | nil => intro _; rfl
  | cons a tl ih =>
    intro h
    have ha : a < jobs.length := h a (by simp)
    rcases hj : jobs.get? a with _ | j
    · have := List.get?_eq_none.mp hj
      omega
    · simp only [List.filterMap_cons, hj, Option.map_some']
      rw [List.length_cons, ih (fun i hi => h i (by simp [hi]))]
      rfl

/-- Core behavior of `run_extraction` under any completion order: record
count, permutation-equivalence with the in-order collection, and emission
of the minimal fallback record for every timed-out job. -/
theorem runExtraction_behavior (index : List (String × String))
    (limit : Option Int) (charLimit : Nat) (page : Nat → Page)
    (timeoutAt : Nat → Bool) (order : List Nat)
    (hord : order.Perm (List.range ((toProcess index limit).length))) :
    (runExtraction index limit charLimit page timeoutAt order).length =
      (toProcess index limit).length ∧
    (runExtraction index limit charLimit page timeoutAt order).Perm
      (runExtraction index limit charLimit page timeoutAt
        (List.range ((toProcess index limit).length))) ∧
    ∀ i p, (toProcess index limit).get? i = some p → timeoutAt i = true →
      ({ name := p.1, url := p.2 } : Gemeinde) ∈
        runExtraction index limit charLimit page timeoutAt order := by
  have hlt : ∀ i ∈ order, i < (toProcess index limit).length := by
    intro i hi
    have hmem := hord.mem_iff.mp hi
    simpa [List.mem_range] using hmem
  refine ⟨?_, ?_, ?_⟩
  · unfold runExtraction
    have hlen := runExtraction_length_aux
      ((toProcess index limit).map (fun p => (p.1, p.2, charLimit)))
      page timeoutAt order (by simpa using hlt)
    rw [hlen, hord.length_eq, List.length_range]
  · exact hord.filterMap _
  · intro i p hp ht
    have hi : i ∈ order := by
      refine hord.mem_iff.mpr ?_
      have : i < (toProcess index limit).length := by
        by_contra hcon
        push_neg at hcon
        rw [List.get?_eq_none.mpr hcon] at hp
        exact Option.noConfusion hp
      simpa [List.mem_range]
    unfold runExtraction
    refine List.mem_filterMap.mpr ⟨i, hi, ?_⟩
    rw [List.get?_map, hp]
    simp only [Option.map_some']
    unfold processJob
    rw [if_pos ht]

/-- **C2** (claim C2): for every resolved index and every mixture of
succeeding, failing and timing-out jobs, `run_extraction` returns exactly
one record per dispatched job — the result has exactly as many records as
jobs, it is a permutation of the records an in-order collection would
produce, and every job whose `future.result` raises (timeout or exception)
contributes the minimal fallback record (only `name` and `url` set, every
other attribute absent by the record's defaults) which is never dropped
from the batch. -/
theorem run_extraction_one_record_per_job (index : List (String × String))
    (limit : Option Int) (charLimit : Nat) (page : Nat → Page)
    (timeoutAt : Nat → Bool) (order : List Nat)
    (hord : order.Perm (List.range ((toProcess index limit).length))) :
    (runExtraction index limit charLimit page timeoutAt order).length =
      (toProcess index limit).length ∧
    (runExtraction index limit charLimit page timeoutAt order).Perm
      (runExtraction index limit charLimit page timeoutAt
        (List.range ((toProcess index limit).length))) ∧
    ∀ i p, (toProcess index limit).get? i = some p → timeoutAt i = true →
      ({ name := p.1, url := p.2 } : Gemeinde) ∈
        runExtraction index limit charLimit page timeoutAt order :=
  runExtraction_behavior index limit charLimit page timeoutAt order hord

/-- Witness for C2: a two-entity index where job 1 times out and completes
first; the run still yields two records and contains job 1's fallback
record. -/
theorem run_extraction_one_record_per_job_witness :
    (runExtraction [("A", "ua"), ("B", "ub")] none 0 (fun _ => emptyPage)
        (fun i => i == 1) [1, 0]).length = 2 ∧
    ({ name := "B", url := "ub" } : Gemeinde) ∈
      runExtraction [("A", "ua"), ("B", "ub")] none 0 (fun _ => emptyPage)
        (fun i => i == 1) [1, 0] := by
  have h := run_extraction_one_record_per_job [("A", "ua"), ("B", "ub")] none 0
    (fun _ => emptyPage) (fun i => i == 1) [1, 0] (by decide)
  exact ⟨h.1, h.2.2 1 ("B", "ub") rfl rfl⟩

/-! ## Claims C6 and C10: limit handling -/

/-- Counterexample for C6 as stated: on a three-entry index with `limit=2`,
a legitimate completion order (`[1, 0]`, a permutation of the job indices)
yields the records of the first two entries but **not** in index order, so
"those records are the first limit entries of the index, in index order"
fails. -/
theorem run_extraction_limit_order_counterexample :
    ([1, 0] : List Nat).Perm (List.range 2) ∧
    (runExtraction [("A", "ua"), ("B", "ub"), ("C", "uc")] (some 2) 0
        (fun _ => emptyPage) (fun _ => false) [1, 0]).map Gemeinde.name =
      ["B", "A"] ∧
    (runExtraction [("A", "ua"), ("B", "ub"), ("C", "uc")] (some 2) 0
        (fun _ => emptyPage) (fun _ => false) [1, 0]).map Gemeinde.name ≠
      ([("A", "ua"), ("B", "ub"), ("C", "uc")].take 2).map Prod.fst := by
  refine ⟨by decide, by decide, by decide⟩

/-- **C6 amended** (claim C6): `limit=0` or `limit=None` selects the whole
index; a positive `limit` no larger than the index selects exactly its
first `limit` entries, and the run returns exactly `limit` records — one
per selected entry, as a permutation of the in-order collection (the output
comes in completion order, not necessarily index order). -/
theorem run_extraction_limit_truncation (index : List (String × String))
    (charLimit : Nat) (page : Nat → Page) (timeoutAt : Nat → Bool)
    (order : List Nat) (z : Int) (hz : 0 < z) (hle : z.toNat ≤ index.length)
    (hord : order.Perm (List.range (index.take z.toNat).length)) :
    toProcess index none = index ∧
    toProcess index (some 0) = index ∧
    toProcess index (some z) = index.take z.toNat ∧
    (runExtraction index (some z) charLimit page timeoutAt order).length =
      z.toNat ∧
    (runExtraction index (some z) charLimit page timeoutAt order).Perm
      (runExtraction index (some z) charLimit page timeoutAt
        (List.range (index.take z.toNat).length)) := by
  have htp : toProcess index (some z) = index.take z.toNat := by
    show (if z = 0 then index else pySliceTo index z) = index.take z.toNat
    rw [if_neg (by omega : ¬z = 0)]
    unfold pySliceTo
    rw [if_neg (by omega : ¬z < 0)]
  have hlen : (index.take z.toNat).length = z.toNat := by
    rw [List.length_take]
    omega
  have h := runExtraction_behavior index (some z) charLimit page
    timeoutAt order (by rw [htp]; exact hord)
  refine ⟨rfl, by simp [toProcess], htp, ?_, ?_⟩
  · rw [h.1, htp, hlen]
  · have h2 := h.2.1
    rwa [htp] at h2

/-- Witness for C6: `limit=2` on a three-entry index selects the first two
entries and yields exactly two records. -/
theorem run_extraction_limit_truncation_witness :
    toProcess [("A", "ua"), ("B", "ub"), ("C", "uc")] (some 2) =
      [("A", "ua"), ("B", "ub")] ∧
    (runExtraction [("A", "ua"), ("B", "ub"), ("C", "uc")] (some 2) 0
        (fun _ => emptyPage) (fun _ => false) [1, 0]).length = 2 := by
  have h := run_extraction_limit_truncation [("A", "ua"), ("B", "ub"), ("C", "uc")]
    0 (fun _ => emptyPage) (fun _ => false) [1, 0] 2 (by decide) (by decide)
    (by decide)
  exact ⟨h.2.2.1, h.2.2.2.1⟩

/-- **C10** (claim C10): a negative `limit` is neither rejected nor treated
as "process all": `all_municipalities[:limit]` keeps every index entry
except the last `|limit|` ones (Python list-slice semantics, clamped at
zero), and the run returns exactly that many records. -/
theorem run_extraction_negative_limit (index : List (String × String))
    (charLimit : Nat) (page : Nat → Page) (timeoutAt : Nat → Bool)
    (order : List Nat) (z : Int) (hz : z < 0)
    (hord : order.Perm (List.range (index.length - (-z).toNat))) :
    toProcess index (some z) = index.take (index.length - (-z).toNat) ∧
    (runExtraction index (some z) charLimit page timeoutAt order).length =
      index.length - (-z).toNat := by
  have htp : toProcess index (some z) =
      index.take (index.length - (-z).toNat) := by
    show (if z = 0 then index else pySliceTo index z) =
      index.take (index.length - (-z).toNat)
    rw [if_neg (by omega : ¬z = 0)]
    unfold pySliceTo
    rw [if_pos hz]
  have hlen : (index.take (index.length - (-z).toNat)).length =
      index.length - (-z).toNat := by
    rw [List.length_take]
    omega
  have h := runExtraction_behavior index (some z) charLimit page
    timeoutAt order (by rw [htp, hlen]; exact hord)
  exact ⟨htp, by rw [h.1, htp, hlen]⟩

/-- Witness for C10: `limit=-1` on a two-entry index silently processes
only the first entry. -/
theorem run_extraction_negative_limit_witness :
    toProcess [("A", "ua"), ("B", "ub")] (some (-1)) = [("A", "ua")] ∧
    (runExtraction [("A", "ua"), ("B", "ub")] (some (-1)) 0
        (fun _ => emptyPage) (fun _ => false) [0]).length = 1 := by
  have h := run_extraction_negative_limit [("A", "ua"), ("B", "ub")] 0
    (fun _ => emptyPage) (fun _ => false) [0] (-1) (by decide) (by decide)
  exact ⟨h.1, h.2⟩

/-! ## Claim C7: the retrying fetch primitive -/

theorem getRetryAux_all_error (e : String) :
    ∀ (attempts : List (Except String String)) (last : Option String),
      (∀ a ∈ attempts, a.isOk = false) →
      attempts.getLast? = some (.error e) →
      getRetryAux attempts last = .error (some e) := by
  intro attempts
  induction attempts with
  | nil =>
    intro last _ hl
    simp at hl
  | cons a tl ih =>
    intro last hall hl
    rcases a with ea | ba
    · rcases tl with _ | ⟨b, tl'⟩
      · simp only [List.getLast?_singleton, Option.some.injEq,
          Except.error.injEq] at hl
        subst hl
        rfl
      · have hl' : (b :: tl').getLast? = some (.error e) := by
          simpa using hl
        simp only [getRetryAux]
        exact ih (some ea) (fun x hx => hall x (by simp [hx])) hl'
    · have hba := hall (.ok ba) (by simp)
      simp [Except.isOk, Except.toBool] at hba

theorem getRetryAux_ok_mem :
    ∀ (attempts : List (Except String String)) (last : Option String) (b : String),
      getRetryAux attempts last = .ok b → Except.ok b ∈ attempts := by
  intro attempts
  induction attempts with
  | nil =>
    intro last b h
    simp [getRetryAux] at h
  | cons a tl ih =>
    intro last b h
    rcases a with ea | ba
    · simp only [getRetryAux] at h
      exact List.mem_cons_of_mem _ (ih (some ea) b h)
    · simp only [getRetryAux, Except.ok.injEq] at h
      subst h
      exact List.mem_cons_self _ _

/-- **C7** (claim C7): `_get` either returns the full body of a successful
attempt — the returned body is one of the attempts' bodies, verbatim — or,
after all `max_retries` attempts (default 3) have failed, raises
`ScrapingError` carrying the last underlying cause; it never returns
normally when every attempt failed. -/
theorem get_retry_spec (attempts : List (Except String String)) (e : String) :
    ((∀ a ∈ attempts, a.isOk = false) →
      attempts.getLast? = some (.error e) →
      pyGet attempts = .error (some e)) ∧
    (∀ b, pyGet attempts = .ok b → Except.ok b ∈ attempts) := by
  constructor
  · intro hall hl
    exact getRetryAux_all_error e attempts none hall hl
  · intro b h
    exact getRetryAux_ok_mem attempts none b h

/-- Witness for C7: three failing attempts raise the error carrying the
third attempt's cause; a successful second attempt's body is returned
verbatim. -/
theorem get_retry_spec_witness :
    pyGet [.error "timeout1", .error "timeout2", .error "timeout3"] =
      .error (some "timeout3") ∧
    Except.ok "body" ∈
      ([.error "timeout1", .ok "body"] : List (Except String String)) := by
  constructor
  · exact (get_retry_spec
      [.error "timeout1", .error "timeout2", .error "timeout3"] "timeout3").1
      (by decide) (by rfl)
  · exact (get_retry_spec [.error "timeout1", .ok "body"] "x").2 "body"
      (by rfl)

/-! ## Claims C1, C3, C4, C5: the label/value normalizer -/

theorem dictGet_single_ne {α : Type} (k k' : String) (v : α) (h : k ≠ k') :
    dictGet [(k, v)] k' = none := by
  show (if k = k' then some v else dictGet [] k') = none
  rw [if_neg h]
  rfl

theorem mk_cons_ne_empty (c : Char) (l : List Char) : (⟨c :: l⟩ : String) ≠ "" := by
  intro h
  have h2 := congrArg String.data h
  simp at h2

theorem mk_ne_nan_of_lparen (l : List Char) (h : '(' ∈ l) :
    (⟨l⟩ : String) ≠ "nan" := by
  intro heq
  have h2 := congrArg String.data heq
  have h3 : l = "nan".data := h2
  rw [h3] at h
  exact absurd h (by decide)

theorem lowerKeys_single (l v : String) :
    lowerKeys [[l, v]] =
      if normLabel l ≠ "" ∧ pyStrip v ≠ "" ∧ pyStrip v ≠ "nan"
      then [(normLabel l, pyStrip v)] else [] :=
  rfl

theorem stageMapped_no (data : List (String × String)) (info : Info)
    (h : ∀ kv ∈ fieldMappings, dictGet data kv.1 = none) :
    stageMapped data info = info :=
  foldl_mappedStep_no data fieldMappings info h

theorem parseInfoboxData_no_match (data : List (String × String))
    (h : ∀ k ∈ recognizedLabels, dictGet data k = none) :
    parseInfoboxData data = [] := by
  unfold parseInfoboxData
  rw [stageEinwohner_no data _ (first_none data _ (by
      intro k hk
      simp only [List.mem_cons, List.not_mem_nil, or_false] at hk
      rcases hk with h1 | h1 <;> (subst h1; exact h _ (by decide)))),
    stageFlaeche_no data _ (h "fläche" (by decide)),
    stageHoehe_no data _ (h "höhe" (by decide)),
    stageMapped_no data _ (by
      intro kv hkv
      simp only [fieldMappings, List.mem_cons, List.not_mem_nil, or_false] at hkv
      rcases hkv with h1 | h1 | h1 | h1 | h1 | h1 | h1 <;>
        (subst h1; exact h _ (by decide))),
    stageWebsite_no data _ (first_none data _ (by
      intro k hk
      simp only [List.mem_cons, List.not_mem_nil, or_false] at hk
      rcases hk with h1 | h1 <;> (subst h1; exact h _ (by decide)))),
    stageBuergermeister_no data _ (first_none data _ (by
      intro k hk
      simp only [List.mem_cons, List.not_mem_nil, or_false] at hk
      rcases hk with h1 | h1 <;> (subst h1; exact h _ (by decide))))]

/-- Counterexample for C1 as stated: the raw label `"Einwohner (2021)"`
begins with the recognized population label `"einwohner"` (after
normalization) and carries a trailing qualifier, yet the normalizer leaves
the population attribute absent — matching is exact, not by prefix. -/
theorem label_prefix_match_counterexample :
    pyStartsWith (normLabel "Einwohner (2021)") "einwohner" = true ∧
    normLabel "Einwohner (2021)" ≠ "einwohner" ∧
    dictGet (parseInfoboxData (lowerKeys [["Einwohner (2021)", "12.345"]]))
      "einwohner" = none := by
  refine ⟨by decide, by decide, by decide⟩

/-- **C1 amended** (claim C1): label matching in `_parse_infobox` is exact
(after lower-casing, whitespace stripping and trailing-colon stripping),
never by prefix: a raw label whose normalized form is not itself one of the
recognized labels — in particular one that merely begins with a recognized
population, area, or elevation label and carries trailing qualifiers —
populates no attribute at all. -/
theorem label_matching_exact (l v : String)
    (h : normLabel l ∉ recognizedLabels) :
    parseInfoboxData (lowerKeys [[l, v]]) = [] := by
  rw [lowerKeys_single]
  by_cases hc : normLabel l ≠ "" ∧ pyStrip v ≠ "" ∧ pyStrip v ≠ "nan"
  · rw [if_pos hc]
    apply parseInfoboxData_no_match
    intro k hk
    exact dictGet_single_ne _ _ _ (fun heq => h (heq ▸ hk))
  · rw [if_neg hc]
    exact parseInfoboxData_no_match [] (fun k _ => rfl)

/-- Witness for C1 (amended): the qualified label `"Einwohner (2021)"`
normalizes to `"einwohner (2021)"`, which is not a recognized label, so the
row populates nothing. -/
theorem label_matching_exact_witness :
    parseInfoboxData (lowerKeys [["Einwohner (2021)", "12.345"]]) = [] :=
  label_matching_exact "Einwohner (2021)" "12.345" (by decide)

/-- **C3** (claim C3): for every population value string of the form
`"<digits and period separators> (<date>)"` — a non-empty digit/period run
(with at least one digit) followed by a parenthesized date free of `)` —
the normalizer stores the integer read from the digits alone (periods
dropped as thousands separators) and stores the parenthesized text
verbatim (whitespace-stripped) as the reference date; the parenthesized
text is never numeric-parsed. -/
theorem population_normalization (p d : List Char)
    (hp : p ≠ []) (hpc : ∀ c ∈ p, isDigitOrDot c = true)
    (hdig : ∃ c ∈ p, c.isDigit = true)
    (hd : ∀ c ∈ d, c ≠ ')') :
    dictGet (parseInfoboxData (lowerKeys
        [["Einwohner", ⟨p ++ ' ' :: '(' :: (d ++ [')'])⟩]])) "einwohner" =
      some (some (Value.vInt (digitsNat (p.filter Char.isDigit)))) ∧
    dictGet (parseInfoboxData (lowerKeys
        [["Einwohner", ⟨p ++ ' ' :: '(' :: (d ++ [')'])⟩]])) "einwohner_datum" =
      some (some (Value.vStr (pyStrip ⟨d⟩))) := by
  rcases p with _ | ⟨c0, p'⟩
  · exact absurd rfl hp
  -- the strip of the raw value is the value itself
  have hstripL : stripChars ((c0 :: p') ++ ' ' :: '(' :: (d ++ [')'])) =
      (c0 :: p') ++ ' ' :: '(' :: (d ++ [')']) := by
    apply stripChars_eq_self
    · intro c hc
      simp only [List.cons_append, List.head?_cons, Option.some.injEq] at hc
      subst hc
      exact isDigitOrDot_not_space c0 (hpc c0 (by simp))
    · intro c hc
      rw [show (c0 :: p') ++ ' ' :: '(' :: (d ++ [')']) =
          ((c0 :: p') ++ ' ' :: '(' :: d) ++ [')'] by simp] at hc
      rw [List.getLast?_concat] at hc
      simp only [Option.some.injEq] at hc
      subst hc
      rfl
  have hstrip : pyStrip (⟨(c0 :: p') ++ ' ' :: '(' :: (d ++ [')'])⟩ : String) =
      ⟨(c0 :: p') ++ ' ' :: '(' :: (d ++ [')'])⟩ :=
    congrArg String.mk hstripL
  have hvne : (⟨(c0 :: p') ++ ' ' :: '(' :: (d ++ [')'])⟩ : String) ≠ "" :=
    mk_cons_ne_empty c0 _
  have hvnan : (⟨(c0 :: p') ++ ' ' :: '(' :: (d ++ [')'])⟩ : String) ≠ "nan" :=
    mk_ne_nan_of_lparen _ (by simp)
  have hcond : normLabel "Einwohner" ≠ "" ∧
      pyStrip (⟨(c0 :: p') ++ ' ' :: '(' :: (d ++ [')'])⟩ : String) ≠ "" ∧
      pyStrip (⟨(c0 :: p') ++ ' ' :: '(' :: (d ++ [')'])⟩ : String) ≠ "nan" := by
    refine ⟨by decide, ?_, ?_⟩ <;> rw [hstrip]
    · exact hvne
    · exact hvnan
  have hlk : lowerKeys [["Einwohner",
      ⟨(c0 :: p') ++ ' ' :: '(' :: (d ++ [')'])⟩]] =
      [("einwohner", (⟨(c0 :: p') ++ ' ' :: '(' :: (d ++ [')'])⟩ : String))] := by
    rw [lowerKeys_single, if_pos hcond, hstrip,
      show normLabel "Einwohner" = "einwohner" from by decide]
  rw [hlk]
  -- the regex results on the raw value
  have hsearch : reSearchClass isDigitOrDot
      ((c0 :: p') ++ ' ' :: '(' :: (d ++ [')'])) = some (c0 :: p') :=
    reSearchClass_run isDigitOrDot (c0 :: p') ' ' ('(' :: (d ++ [')']))
      (by simp) hpc (by decide)
  have hparen : reParenGroup ((c0 :: p') ++ ' ' :: '(' :: (d ++ [')'])) =
      some d := by
    rw [show (c0 :: p') ++ ' ' :: '(' :: (d ++ [')']) =
        ((c0 :: p') ++ [' ']) ++ ('(' :: (d ++ [')'])) by simp]
    rw [reParenGroup_skip ((c0 :: p') ++ [' ']) _ (by
      intro c hc
      rcases List.mem_append.mp hc with h1 | h1
      · exact isDigitOrDot_ne_lparen c (hpc c h1)
      · simp only [List.mem_singleton] at h1
        subst h1
        decide)]
    exact reParenGroup_found d [] hd
  -- the population integer
  have hfne : (c0 :: p').filter Char.isDigit ≠ [] := by
    intro hnil
    rw [List.filter_eq_nil_iff] at hnil
    obtain ⟨c, hc, hcd⟩ := hdig
    exact hnil c hc (by simp [hcd])
  have hsi : safeInt (⟨c0 :: p'⟩ : String) =
      some ((digitsNat ((c0 :: p').filter Char.isDigit) : Nat) : Int) := by
    show (if (c0 :: p').filter Char.isDigit = [] then none
          else some ((digitsNat ((c0 :: p').filter Char.isDigit) : Nat) : Int))
        = _
    rw [if_neg hfne]
  -- the first stage writes both keys
  have hfirst : first [("einwohner",
      (⟨(c0 :: p') ++ ' ' :: '(' :: (d ++ [')'])⟩ : String))]
      ["einwohner", "bevölkerung"] =
      some (⟨(c0 :: p') ++ ' ' :: '(' :: (d ++ [')'])⟩ : String) :=
    first_head _ _ _ _ (by simp [dictGet]) hvne
  have hstage : stageEinwohner [("einwohner",
      (⟨(c0 :: p') ++ ' ' :: '(' :: (d ++ [')'])⟩ : String))] [] =
      dictSet (dictSet [] "einwohner"
          ((safeInt (⟨c0 :: p'⟩ : String)).map Value.vInt))
        "einwohner_datum" (some (Value.vStr (pyStrip ⟨d⟩))) := by
    unfold stageEinwohner
    simp only [hfirst, hsearch, hparen]
  -- the later stages are no-ops on this data
  have hno : ∀ k, k ≠ "einwohner" →
      dictGet [("einwohner",
        (⟨(c0 :: p') ++ ' ' :: '(' :: (d ++ [')'])⟩ : String))] k = none :=
    fun k hk => dictGet_single_ne _ _ _ (Ne.symm hk)
  unfold parseInfoboxData
  rw [hstage,
    stageFlaeche_no _ _ (hno "fläche" (by decide)),
    stageHoehe_no _ _ (hno "höhe" (by decide)),
    stageMapped_no _ _ (by
      intro kv hkv
      simp only [fieldMappings, List.mem_cons, List.not_mem_nil, or_false] at hkv
      rcases hkv with h1 | h1 | h1 | h1 | h1 | h1 | h1 <;>
        (subst h1; exact hno _ (by decide))),
    stageWebsite_no _ _ (first_none _ _ (by
      intro k hk
      simp only [List.mem_cons, List.not_mem_nil, or_false] at hk
      rcases hk with h1 | h1 <;> (subst h1; exact hno _ (by decide)))),
    stageBuergermeister_no _ _ (first_none _ _ (by
      intro k hk
      simp only [List.mem_cons, List.not_mem_nil, or_false] at hk
      rcases hk with h1 | h1 <;> (subst h1; exact hno _ (by decide))))]
  constructor
  · rw [dictGet_set_ne _ _ _ _ (by decide), dictGet_set_self, hsi]
    rfl
  · rw [dictGet_set_self]

/-- Witness for C3: the population value `"12.345 (2021)"` yields the
integer `12345` and the reference date `"2021"`. -/
theorem population_normalization_witness :
    dictGet (parseInfoboxData (lowerKeys [["Einwohner", "12.345 (2021)"]]))
      "einwohner" = some (some (Value.vInt 12345)) ∧
    dictGet (parseInfoboxData (lowerKeys [["Einwohner", "12.345 (2021)"]]))
      "einwohner_datum" = some (some (Value.vStr "2021")) := by
  have h := population_normalization "12.345".data "2021".data (by decide)
    (by decide) (by decide) (by decide)
  exact ⟨h.1, h.2⟩

theorem dropWhile_append_stop (pr : Char → Bool) (xs : List Char) (y : Char)
    (ys : List Char) (hxs : ∀ x ∈ xs, pr x = true) (hy : pr y = false) :
    (xs ++ y :: ys).dropWhile pr = y :: ys := by
  induction xs with
  | nil => simp [List.dropWhile_cons, hy]
  | cons a l ih =>
    have ha : pr a = true := hxs a (by simp)
    have ih' := ih (fun x hx => hxs x (by simp [hx]))
    simp [List.dropWhile_cons, ha, ih']

theorem map_comma_digits (l : List Char) (h : ∀ c ∈ l, c.isDigit = true) :
    l.map (fun c => if c = ',' then '.' else c) = l := by
  induction l with
  | nil => rfl
  | cons a tl ih =>
    have ha : a ≠ ',' := isDigit_ne_comma a (h a (by simp))
    simp only [List.map_cons, if_neg ha]
    rw [ih (fun c hc => h c (by simp [hc]))]

theorem mk_ne_nan_of_comma (l : List Char) (h : ',' ∈ l) :
    (⟨l⟩ : String) ≠ "nan" := by
  intro heq
  have h2 := congrArg String.data heq
  have h3 : l = "nan".data := h2
  rw [h3] at h
  exact absurd h (by decide)


/-- **C4** (claim C4): for every area value string of the form
`"<digits>,<digits> <unit>"` — a comma-decimal number followed by a unit
containing no digits, commas, periods or whitespace — the normalizer
stores the float (modelled exactly in `ℚ`) obtained by replacing the comma
with a period after stripping every other non-numeric character. -/
theorem area_normalization (a b u : List Char)
    (ha : a ≠ []) (hac : ∀ c ∈ a, c.isDigit = true)
    (hb : b ≠ []) (hbc : ∀ c ∈ b, c.isDigit = true)
    (hu0 : u ≠ []) (huc : ∀ c ∈ u, isDigitCommaDot c = false)
    (husp : ∀ c ∈ u, pyIsSpace c = false) :
    dictGet (parseInfoboxData (lowerKeys
        [["Fläche", ⟨(a ++ ',' :: b) ++ ' ' :: u⟩]])) "flaeche_km2" =
      some (some (Value.vRat
        ((digitsNat a : ℚ) + (digitsNat b : ℚ) / (10 ^ b.length)))) := by
  rcases a with _ | ⟨c0, a'⟩
  · exact absurd rfl ha
  rcases u with _ | ⟨u0, u'⟩
  · exact absurd rfl hu0
  -- the strip of the raw value is the value itself
  have hstripL : stripChars (((c0 :: a') ++ ',' :: b) ++ ' ' :: u0 :: u') =
      ((c0 :: a') ++ ',' :: b) ++ ' ' :: u0 :: u' := by
    apply stripChars_eq_self
    · intro c hc
      simp only [List.cons_append, List.head?_cons, Option.some.injEq] at hc
      subst hc
      exact isDigit_not_space c0 (hac c0 (by simp))
    · intro c hc
      rw [List.getLast?_append, List.getLast?_cons_cons] at hc
      rcases hgl : (u0 :: u').getLast? with _ | cl
      · rw [List.getLast?_eq_none_iff] at hgl
        exact absurd hgl (by simp)
      · rw [hgl, Option.or_some] at hc
        simp only [Option.some.injEq] at hc
        subst hc
        exact husp cl (List.mem_of_mem_getLast? (Option.mem_def.mpr hgl))
  have hstrip : pyStrip
      (⟨((c0 :: a') ++ ',' :: b) ++ ' ' :: u0 :: u'⟩ : String) =
      ⟨((c0 :: a') ++ ',' :: b) ++ ' ' :: u0 :: u'⟩ :=
    congrArg String.mk hstripL
  have hvne : (⟨((c0 :: a') ++ ',' :: b) ++ ' ' :: u0 :: u'⟩ : String) ≠ "" :=
    mk_cons_ne_empty c0 _
  have hvnan : (⟨((c0 :: a') ++ ',' :: b) ++ ' ' :: u0 :: u'⟩ : String) ≠ "nan" :=
    mk_ne_nan_of_comma _ (by simp)
  have hcond : normLabel "Fläche" ≠ "" ∧
      pyStrip (⟨((c0 :: a') ++ ',' :: b) ++ ' ' :: u0 :: u'⟩ : String) ≠ "" ∧
      pyStrip (⟨((c0 :: a') ++ ',' :: b) ++ ' ' :: u0 :: u'⟩ : String) ≠ "nan" := by
    refine ⟨by decide, ?_, ?_⟩ <;> rw [hstrip]
    · exact hvne
    · exact hvnan
  have hlk : lowerKeys [["Fläche",
      ⟨((c0 :: a') ++ ',' :: b) ++ ' ' :: u0 :: u'⟩]] =
      [("fläche", (⟨((c0 :: a') ++ ',' :: b) ++ ' ' :: u0 :: u'⟩ : String))] := by
    rw [lowerKeys_single, if_pos hcond, hstrip,
      show normLabel "Fläche" = "fläche" from by decide]
  rw [hlk]
  -- the regex match on the raw value
  have hall : ∀ c ∈ (c0 :: a') ++ ',' :: b, isDigitCommaDot c = true := by
    intro c hc
    rcases List.mem_append.mp hc with h1 | h1
    · simp [isDigitCommaDot, hac c h1]
    · rcases List.mem_cons.mp h1 with h2 | h2
      · subst h2; rfl
      · simp [isDigitCommaDot, hbc c h2]
  have hsearch : reSearchClass isDigitCommaDot
      (((c0 :: a') ++ ',' :: b) ++ ' ' :: u0 :: u') =
      some ((c0 :: a') ++ ',' :: b) :=
    reSearchClass_run isDigitCommaDot ((c0 :: a') ++ ',' :: b) ' ' (u0 :: u')
      (by simp) hall (by decide)
  -- float parsing of the match
  have hfilter : ((c0 :: a') ++ ',' :: b).filter
      (fun c => c.isDigit || c = ',' || c = '.') = (c0 :: a') ++ ',' :: b := by
    rw [List.filter_eq_self]
    intro c hc
    have := hall c hc
    simpa [isDigitCommaDot] using this
  have hmap : ((c0 :: a') ++ ',' :: b).map (fun c => if c = ',' then '.' else c) =
      (c0 :: a') ++ '.' :: b := by
    rw [List.map_append, map_comma_digits (c0 :: a') hac, List.map_cons,
      if_pos rfl, map_comma_digits b hbc]
  have htake : ((c0 :: a') ++ '.' :: b).takeWhile (fun c => decide (c ≠ '.')) =
      c0 :: a' := by
    apply takeWhile_append_stop
    · intro x hx
      simp [isDigit_ne_dot x (hac x hx)]
    · simp
  have hdrop : ((c0 :: a') ++ '.' :: b).dropWhile (fun c => decide (c ≠ '.')) =
      '.' :: b := by
    apply dropWhile_append_stop
    · intro x hx
      simp [isDigit_ne_dot x (hac x hx)]
    · simp
  have hpfd : pyFloatDigits ((c0 :: a') ++ '.' :: b) =
      some ((digitsNat (c0 :: a') : ℚ) + (digitsNat b : ℚ) / (10 ^ b.length)) := by
    unfold pyFloatDigits
    simp only [htake, hdrop]
    rw [if_neg (fun hmem => absurd (hbc '.' hmem) (by decide)),
      if_neg (fun hand => absurd hand.1 (by simp))]
  have hsf : safeFloat (⟨(c0 :: a') ++ ',' :: b⟩ : String) =
      some ((digitsNat (c0 :: a') : ℚ) + (digitsNat b : ℚ) / (10 ^ b.length)) := by
    show pyFloatDigits ((((c0 :: a') ++ ',' :: b).filter
        (fun c => c.isDigit || c = ',' || c = '.')).map
        (fun c => if c = ',' then '.' else c)) = _
    rw [hfilter, hmap, hpfd]
  -- the area stage writes the field
  have hget : dictGet [("fläche",
      (⟨((c0 :: a') ++ ',' :: b) ++ ' ' :: u0 :: u'⟩ : String))] "fläche" =
      some (⟨((c0 :: a') ++ ',' :: b) ++ ' ' :: u0 :: u'⟩ : String) := by
    simp [dictGet]
  have hstage : stageFlaeche [("fläche",
      (⟨((c0 :: a') ++ ',' :: b) ++ ' ' :: u0 :: u'⟩ : String))] [] =
      dictSet [] "flaeche_km2"
        ((safeFloat (⟨(c0 :: a') ++ ',' :: b⟩ : String)).map Value.vRat) := by
    unfold stageFlaeche
    simp only [hget]
    rw [if_pos hvne]
    simp only [hsearch]
  -- the other stages are no-ops on this data
  have hno : ∀ k, k ≠ "fläche" →
      dictGet [("fläche",
        (⟨((c0 :: a') ++ ',' :: b) ++ ' ' :: u0 :: u'⟩ : String))] k = none :=
    fun k hk => dictGet_single_ne _ _ _ (Ne.symm hk)
  unfold parseInfoboxData
  rw [stageEinwohner_no _ _ (first_none _ _ (by
      intro k hk
      simp only [List.mem_cons, List.not_mem_nil, or_false] at hk
      rcases hk with h1 | h1 <;> (subst h1; exact hno _ (by decide)))),
    hstage,
    stageHoehe_no _ _ (hno "höhe" (by decide)),
    stageMapped_no _ _ (by
      intro kv hkv
      simp only [fieldMappings, List.mem_cons, List.not_mem_nil, or_false] at hkv
      rcases hkv with h1 | h1 | h1 | h1 | h1 | h1 | h1 <;>
        (subst h1; exact hno _ (by decide))),
    stageWebsite_no _ _ (first_none _ _ (by
      intro k hk
      simp only [List.mem_cons, List.not_mem_nil, or_false] at hk
      rcases hk with h1 | h1 <;> (subst h1; exact hno _ (by decide)))),
    stageBuergermeister_no _ _ (first_none _ _ (by
      intro k hk
      simp only [List.mem_cons, List.not_mem_nil, or_false] at hk
      rcases hk with h1 | h1 <;> (subst h1; exact hno _ (by decide))))]
  rw [dictGet_set_self, hsf]
  rfl

/-- Witness for C4: the area value `"45,7 km²"` yields the float `45.7`
(the rational `457/10`). -/
theorem area_normalization_witness :
    dictGet (parseInfoboxData (lowerKeys [["Fläche", "45,7 km²"]]))
      "flaeche_km2" = some (some (Value.vRat (457 / 10))) := by
  have h := area_normalization "45".data "7".data "km²".data (by decide)
    (by decide) (by decide) (by decide) (by decide) (by decide) (by decide)
  have hstr : (⟨("45".data ++ ',' :: "7".data) ++ ' ' :: "km²".data⟩ : String) =
      "45,7 km²" := by decide
  have d1 : digitsNat "45".data = 45 := by decide
  have d2 : digitsNat "7".data = 7 := by decide
  have d3 : "7".data.length = 1 := by decide
  rw [hstr, d1, d2, d3] at h
  rw [h]
  norm_num

/-- Counterexample for C5 as stated: the website value
`"ftp://www.example.de"` carries an explicit scheme, yet normalization does
not leave it unchanged — the code only tests `startswith("http")`, so it
prepends `https://` to the already-schemed value. -/
theorem website_scheme_counterexample :
    specHasScheme "ftp://www.example.de".data = true ∧
    dictGet (parseInfoboxData (lowerKeys [["Website", "ftp://www.example.de"]]))
      "website" = some (some (Value.vStr "https://ftp://www.example.de")) ∧
    ("https://ftp://www.example.de" : String) ≠ "ftp://www.example.de" := by
  refine ⟨by decide, by decide, by decide⟩

/-- **C5 amended** (claim C5): for every website value, normalization tests
only whether the value starts with the four characters `"http"`: a value
starting with `"http"` is stored unchanged, and every other value — whether
schemeless or carrying a non-`http` scheme such as `ftp://` — gets
`https://` prepended. -/
theorem website_normalization (w : String)
    (hw1 : pyStrip w = w) (hw2 : w ≠ "") (hw3 : w ≠ "nan") :
    dictGet (parseInfoboxData (lowerKeys [["Website", w]])) "website" =
      some (some (Value.vStr
        (if pyStartsWith w "http" then w else "https://" ++ w))) := by
  have hcond : normLabel "Website" ≠ "" ∧ pyStrip w ≠ "" ∧ pyStrip w ≠ "nan" := by
    refine ⟨by decide, ?_, ?_⟩ <;> rw [hw1]
    · exact hw2
    · exact hw3
  have hlk : lowerKeys [["Website", w]] = [("website", w)] := by
    rw [lowerKeys_single, if_pos hcond, hw1,
      show normLabel "Website" = "website" from by decide]
  rw [hlk]
  have hno : ∀ k, k ≠ "website" → dictGet [("website", w)] k = none :=
    fun k hk => dictGet_single_ne _ _ _ (Ne.symm hk)
  have hfirst : first [("website", w)] ["website", "homepage"] = some w :=
    first_head _ _ _ _ (by simp [dictGet]) hw2
  unfold parseInfoboxData
  rw [stageEinwohner_no _ _ (first_none _ _ (by
      intro k hk
      simp only [List.mem_cons, List.not_mem_nil, or_false] at hk
      rcases hk with h1 | h1 <;> (subst h1; exact hno _ (by decide)))),
    stageFlaeche_no _ _ (hno "fläche" (by decide)),
    stageHoehe_no _ _ (hno "höhe" (by decide)),
    stageMapped_no _ _ (by
      intro kv hkv
      simp only [fieldMappings, List.mem_cons, List.not_mem_nil, or_false] at hkv
      rcases hkv with h1 | h1 | h1 | h1 | h1 | h1 | h1 <;>
        (subst h1; exact hno _ (by decide)))]
  have hstage : stageWebsite [("website", w)] [] =
      dictSet [] "website" (some (Value.vStr
        (if pyStartsWith w "http" then w else "https://" ++ w))) := by
    unfold stageWebsite
    simp only [hfirst]
  rw [hstage,
    stageBuergermeister_no _ _ (first_none _ _ (by
      intro k hk
      simp only [List.mem_cons, List.not_mem_nil, or_false] at hk
      rcases hk with h1 | h1 <;> (subst h1; exact hno _ (by decide))))]
  rw [dictGet_set_self]

/-- Witness for C5 (amended): a schemeless value is prefixed with
`https://`; a value already starting with `"http"` is stored unchanged. -/
theorem website_normalization_witness :
    dictGet (parseInfoboxData (lowerKeys [["Website", "www.example.de"]]))
      "website" = some (some (Value.vStr "https://www.example.de")) ∧
    dictGet (parseInfoboxData (lowerKeys [["Website", "https://example.de"]]))
      "website" = some (some (Value.vStr "https://example.de")) := by
  constructor
  · have h := website_normalization "www.example.de" (by decide) (by decide)
      (by decide)
    have hif : (if pyStartsWith "www.example.de" "http" then "www.example.de"
        else "https://" ++ "www.example.de") = "https://www.example.de" := by decide
    rw [hif] at h
    exact h
  · have h := website_normalization "https://example.de" (by decide) (by decide)
      (by decide)
    have hif : (if pyStartsWith "https://example.de" "http" then "https://example.de"
        else "https://" ++ "https://example.de") = "https://example.de" := by decide
    rw [hif] at h
    exact h
